import Mathlib

/-!
Verification of the signal-computation and caching pipeline of the
investment-dashboard repository (`dashboard_app`).  The definitions below are a
shallow embedding of `dashboard_app/data_store.py`,
`dashboard_app/providers/finnhub_analyst.py` and
`dashboard_app/security/id_map.py`.  Python/numpy floats are modelled as exact
rationals, with an explicit NaN constructor where pandas can produce NaN
(`diff`, under-filled rolling windows); Python `None` is `Option.none` (or a
dedicated constructor where a field can be either `None` or NaN); a raised,
uncaught exception is `Except.error ()`.
-/

namespace DashStore

/-- A Python/numpy float value: either NaN or an exact rational.  NaN arises in
the pipeline only from `Series.diff()` (first element) and from rolling windows
with fewer observations than the window length. -/
inductive PF where
  | nan : PF
  | num (q : ℚ) : PF
deriving DecidableEq, Repr

/-- NaN-propagating addition (numpy elementwise `+`). -/
def PF.add : PF → PF → PF
  | PF.num a, PF.num b => PF.num (a + b)
  | _, _ => PF.nan

/-- NaN-propagating subtraction (numpy elementwise `-`). -/
def PF.sub : PF → PF → PF
  | PF.num a, PF.num b => PF.num (a - b)
  | _, _ => PF.nan

/-- NaN-propagating division (numpy elementwise `/`).  Division of a number by
exact zero is mapped to NaN; in the embedded code every number denominator is
nonzero (losses are passed through `replace(0, 1e-9)` first, and the volume
ratio is guarded by `vol_avg20 != 0`), so this branch is unreachable there. -/
def PF.div : PF → PF → PF
  | PF.num a, PF.num b => if b = 0 then PF.nan else PF.num (a / b)
  | _, _ => PF.nan

/-- Python `a < b` on floats: any comparison with NaN is `False`. -/
def PF.ltB : PF → PF → Bool
  | PF.num a, PF.num b => decide (a < b)
  | _, _ => false

/-- Python truthiness `bool(x)` of a float: `0.0` is falsy, NaN is truthy. -/
def PF.truthy : PF → Bool
  | PF.nan => true
  | PF.num q => decide (q ≠ 0)

/-- Python `x != 0` on a float: `True` for NaN. -/
def PF.neZero : PF → Bool
  | PF.nan => true
  | PF.num q => decide (q ≠ 0)

/-- Is this value NaN? (pandas `isna`). -/
def PF.isNan : PF → Bool
  | PF.nan => true
  | PF.num _ => false

/-- The rational carried by a `PF`, with a junk default for NaN (only ever used
under a no-NaN guard). -/
def PF.toQ : PF → ℚ
  | PF.nan => 0
  | PF.num q => q

/-- Round-half-to-even to an integer, the rounding mode of Python `round`. -/
def rhe (x : ℚ) : ℤ :=
  if x - ⌊x⌋ < 1/2 then ⌊x⌋
  else if 1/2 < x - ⌊x⌋ then ⌊x⌋ + 1
  else if 2 ∣ ⌊x⌋ then ⌊x⌋ else ⌊x⌋ + 1

/-- Python `round(x, nd)` on our exact-rational model of floats. -/
def pyRound (nd : Nat) (x : ℚ) : ℚ := (rhe (x * 10 ^ nd) : ℚ) / 10 ^ nd

/-- Python `round(x, 2)` lifted over NaN: `round(nan, 2)` is NaN in Python. -/
def PF.round2 : PF → PF
  | PF.nan => PF.nan
  | PF.num q => PF.num (pyRound 2 q)

/-- A value that Python code may hold as `None`, NaN or a number (e.g. the
`rsi14` and `vol_avg20_ratio` fields). -/
inductive POF where
  | none : POF
  | nan : POF
  | num (q : ℚ) : POF
deriving DecidableEq, Repr

/-- Repackage a float as a `POF` (not `None`). -/
def pofOfPF : PF → POF
  | PF.nan => POF.nan
  | PF.num q => POF.num q

/-- Embedding of `Series.diff()`: first element NaN, then successive differences. -/
def pandasDiff (xs : List ℚ) : List PF :=
  match xs with
  | [] => []
  | _ :: rest => PF.nan :: List.zipWith (fun a b => PF.num (a - b)) rest xs

/-- Embedding of `Series.rolling(window=w).mean()` with the default `min_periods = w`:
position `i` holds the mean of the window ending at `i` when that window is
full and NaN-free, and NaN otherwise. -/
def rollingMean (w : Nat) (xs : List PF) : List PF :=
  (List.range xs.length).map (fun i =>
    if i + 1 < w then PF.nan
    else
      let win := (xs.take (i + 1)).drop (i + 1 - w)
      if win.any PF.isNan then PF.nan
      else PF.num ((win.map PF.toQ).sum / (w : ℚ)))

/-- Embedding of `delta.clip(lower=0)` (elementwise; NaN passes through). -/
def clipGains : List PF → List PF :=
  List.map (fun v => match v with
    | PF.nan => PF.nan
    | PF.num q => PF.num (max q 0))

/-- Embedding of `(-delta.clip(upper=0))` (elementwise; NaN passes through). -/
def clipLosses : List PF → List PF :=
  List.map (fun v => match v with
    | PF.nan => PF.nan
    | PF.num q => PF.num (-(min q 0)))

/-- Embedding of `losses.replace(0, 1e-9)`: exact zeros become `1e-9`. -/
def replaceZeroEps : List PF → List PF :=
  List.map (fun v => match v with
    | PF.nan => PF.nan
    | PF.num q => if q = 0 then PF.num (1 / 1000000000) else PF.num q)

/-- Embedding of `DataStore._sma`: `None` if fewer than `window` observations, else the
arithmetic mean of the last `window` values (`series.tail(window).mean()`). -/
def sma (closes : List ℚ) (window : Nat) : Option ℚ :=
  if closes.length < window then Option.none
  else some (((closes.drop (closes.length - window)).sum) / (window : ℚ))

/-- Embedding of `DataStore._rsi` (lines 271-283 of `data_store.py`): simple rolling means
of gains and losses over `period` bars, zero losses replaced by `1e-9`,
`rsi = 100 - 100/(1+rs)`.  On an empty series `iloc[-1]` raises and the
`except` returns `None`.  The guard `val < 0 or val > 100` is `False` for NaN
(Python NaN comparisons), so a NaN last value reaches `round(val, 2)` and is
returned as NaN. -/
def rsiSeriesLast (closes : List ℚ) (period : Nat) : Option PF :=
  let delta := pandasDiff closes
  let gains := rollingMean period (clipGains delta)
  let losses := rollingMean period (clipLosses delta)
  let rs := List.zipWith PF.div gains (replaceZeroEps losses)
  let rsi := rs.map (fun r => PF.sub (PF.num 100) (PF.div (PF.num 100) (PF.add (PF.num 1) r)))
  rsi.getLast?

/-- The tail of `_rsi`: `val = float(rsi.iloc[-1])` (raising on an empty
series, caught by the `except` into `None`), the out-of-range guard, and the
final rounding. -/
def rsiCalc (closes : List ℚ) (period : Nat) : POF :=
  match rsiSeriesLast closes period with
  | Option.none => POF.none
  | some v =>
    if PF.ltB v (PF.num 0) || PF.ltB (PF.num 100) v then POF.none
    else pofOfPF (PF.round2 v)

/-- Embedding of `series.ewm(span=span, adjust=False).mean()` continued from seed `y`:
`y_i = (1-α) y_{i-1} + α x_i` with `α = 2/(span+1)`. -/
def emaFrom (a : ℚ) (y : ℚ) : List ℚ → List ℚ
  | [] => []
  | x :: rest =>
    let y2 := (1 - a) * y + a * x
    y2 :: emaFrom a y2 rest

/-- Embedding of `series.ewm(span=span, adjust=False).mean()`: the recursive EMA seeded by
the first value. -/
def emaList (span : Nat) (xs : List ℚ) : List ℚ :=
  match xs with
  | [] => []
  | x :: rest => x :: emaFrom (2 / ((span : ℚ) + 1)) x rest

/-- Embedding of `DataStore._macd` (12/26/9): the last values of the MACD line, its 9-span
EMA and their difference.  On an empty series `iloc[-1]` raises and the
`except` returns the `None` triple. -/
def macdCalc (closes : List ℚ) : Option (ℚ × ℚ × ℚ) :=
  match closes with
  | [] => Option.none
  | _ :: _ =>
    let emaFast := emaList 12 closes
    let emaSlow := emaList 26 closes
    let macd := List.zipWith (fun a b => a - b) emaFast emaSlow
    let macdSig := emaList 9 macd
    let macdHist := List.zipWith (fun a b => a - b) macd macdSig
    some ((macd.getLast?.getD 0), (macdSig.getLast?.getD 0), (macdHist.getLast?.getD 0))

/-- Embedding of `DataStore._classic_pivot`: `round((H+L+C)/3, 2)` of the previous bar; its
`try` can never fail on floats, so the result is always `some`. -/
def classicPivot (prevHigh prevLow prevClose : ℚ) : Option ℚ :=
  some (pyRound 2 ((prevHigh + prevLow + prevClose) / 3))

/-- The volume-ratio block of `_calc_signal` (lines 348-354):
`vol_avg20 = float(vols.rolling(20).mean().iloc[-1])`,
`round(vol_last / vol_avg20, 2) if (vol_avg20 and vol_avg20 != 0) else None`,
all inside `try/except` (only an empty series raises, via `iloc[-1]`).
For a series shorter than 20 bars the rolling mean is NaN, which is truthy and
`!= 0` in Python, so the division is performed and yields NaN. -/
def volAvg20RatioCalc (volumes : List ℚ) : POF :=
  match (rollingMean 20 (volumes.map PF.num)).getLast?, volumes.getLast? with
  | some avg, some vlast =>
    if avg.truthy && avg.neZero then pofOfPF (PF.round2 (PF.div (PF.num vlast) avg))
    else POF.none
  | _, _ => POF.none

/-- One OHLCV bar of the price history (`recent_ohlc` row). -/
structure Bar where
  open_ : ℚ
  high : ℚ
  low : ℚ
  close : ℚ
  volume : ℚ
deriving DecidableEq, Repr

/-- The `SignalRow` dataclass of `data_store.py`. -/
structure SignalRow where
  symbol : String
  bucket : String
  close : Option ℚ
  sma50 : Option ℚ
  sma200 : Option ℚ
  above50 : Bool
  above200 : Bool
  entry_ok : Bool
  delta_sma50_pct : Option ℚ
  delta_sma200_pct : Option ℚ
  rsi14 : POF
  rsi_zone : Option String
  macd : Option ℚ
  macd_signal : Option ℚ
  macd_hist : Option ℚ
  w52_high : Option ℚ
  w52_low : Option ℚ
  pct_to_52w_high : Option ℚ
  pct_from_52w_low : Option ℚ
  pivot : Option ℚ
  vol_avg20_ratio : POF
  reentry : Option Bool
deriving DecidableEq, Repr

/-- The all-`None`/`False` row returned by `_calc_signal` when the history is
missing or empty (dataclass defaults fill the indicator fields with `None`). -/
def noDataRow (symbol bucket : String) : SignalRow :=
  SignalRow.mk symbol bucket Option.none Option.none Option.none false false false
    Option.none Option.none POF.none Option.none Option.none Option.none Option.none
    Option.none Option.none Option.none Option.none Option.none POF.none Option.none

/-- Python float division: raises `ZeroDivisionError` on a zero denominator. -/
def pyDiv (a b : ℚ) : Except Unit ℚ :=
  if b = 0 then Except.error () else Except.ok (a / b)

/-- Last element of a list of rationals, with a junk default (used only where
the code has already established the series is nonempty). -/
def lastD (xs : List ℚ) : ℚ := xs.getLast?.getD 0

/-- Max/min of a series (`Series.max()` / `Series.min()`), `None` on empty. -/
def listMax : List ℚ → Option ℚ
  | [] => Option.none
  | x :: xs => some (xs.foldl max x)

def listMin : List ℚ → Option ℚ
  | [] => Option.none
  | x :: xs => some (xs.foldl min x)

/-- Embedding of `DataStore._calc_signal` (lines 306-380).  The history is `df`
(`None` = fetch failure); `riskOnFlag` is the value of `self.risk_on()` (the
process-wide breadth flag, computed once per assembly pass through the breadth
cache).  `Except.error ()` models an uncaught exception
(`ZeroDivisionError` from the unguarded float divisions). -/
def calcSignal (symbol bucket : String) (df : Option (List Bar)) (riskOnFlag : Bool) :
    Except Unit SignalRow := do
  match df with
  | Option.none => pure (noDataRow symbol bucket)
  | some bars =>
  if bars.isEmpty then pure (noDataRow symbol bucket) else do
  let closes := bars.map Bar.close
  -- close = float(df["Close"].iloc[-1])
  let close := lastD closes
  let sma50 := sma closes 50
  let sma200 := sma closes 200
  -- above50 = close > (sma50 if sma50 is not None else -1e18)   (same for 200)
  let above50 := decide (close > sma50.getD (-(1000000000000000000 : ℚ)))
  let above200 := decide (close > sma200.getD (-(1000000000000000000 : ℚ)))
  let entryOk := above50 && above200 && riskOnFlag
  -- delta_sma50_pct = round(((close / sma50) - 1) * 100, 2) if sma50 is not None else None
  let delta50 : Option ℚ ← match sma50 with
    | some s => do
      let d ← pyDiv close s
      pure (some (pyRound 2 ((d - 1) * 100)))
    | Option.none => pure Option.none
  let delta200 : Option ℚ ← match sma200 with
    | some s => do
      let d ← pyDiv close s
      pure (some (pyRound 2 ((d - 1) * 100)))
    | Option.none => pure Option.none
  let rsi14 := rsiCalc closes 14
  -- rsi_zone: NaN fails both `>= 70` and `<= 30` but is not None, giving "Neutral"
  let rsiZone : Option String :=
    match rsi14 with
    | POF.none => Option.none
    | POF.nan => some "Neutral"
    | POF.num q =>
      if q ≥ 70 then some "Overbought"
      else if q ≤ 30 then some "Oversold"
      else some "Neutral"
  let macdT := macdCalc closes
  -- 52-week window over the trailing min(len, 252) bars
  let window := min bars.length 252
  let w52High : Option ℚ :=
    if 0 < window then listMax ((bars.map Bar.high).drop (bars.length - window)) else Option.none
  let w52Low : Option ℚ :=
    if 0 < window then listMin ((bars.map Bar.low).drop (bars.length - window)) else Option.none
  -- pct_to_52w_high = round(((w52_high / close) - 1) * 100, 2) (close is never None here)
  let pctTo : Option ℚ ← match w52High with
    | some h => do
      let d ← pyDiv h close
      pure (some (pyRound 2 ((d - 1) * 100)))
    | Option.none => pure Option.none
  let pctFrom : Option ℚ ← match w52Low with
    | some l => do
      let d ← pyDiv close l
      pure (some (pyRound 2 ((d - 1) * 100)))
    | Option.none => pure Option.none
  -- classic pivot from the second-to-last bar when len >= 2
  let pivot : Option ℚ :=
    if 2 ≤ bars.length then
      match bars.dropLast.getLast? with
      | some prev => classicPivot prev.high prev.low prev.close
      | Option.none => Option.none
    else Option.none
  let volRatio := volAvg20RatioCalc (bars.map Bar.volume)
  -- reentry: yesterday's close below SMA50 and today's above; None otherwise
  let reentry : Option Bool :=
    if 2 ≤ bars.length then
      match sma50 with
      | some s => some (decide (lastD closes.dropLast < s) && decide (close > s))
      | Option.none => Option.none
    else Option.none
  pure (SignalRow.mk symbol bucket (some close) sma50 sma200 above50 above200 entryOk
    delta50 delta200 rsi14 rsiZone
    ((macdT.map (fun t => pyRound 4 t.1)))
    ((macdT.map (fun t => pyRound 4 t.2.1)))
    ((macdT.map (fun t => pyRound 4 t.2.2)))
    (w52High.map (pyRound 2)) (w52Low.map (pyRound 2))
    pctTo pctFrom (pivot.map (pyRound 2)) volRatio reentry)

/-! ## Enrichment resolver (`_analyst_maybe`, `finnhub_analyst.py`) -/

/-- Rating counts as built by `_latest_reco_from_finnhub` (always all five
keys, as ints). -/
structure Counts where
  strongBuy : ℤ
  buy : ℤ
  hold : ℤ
  sell : ℤ
  strongSell : ℤ
deriving DecidableEq, Repr

/-- The `percent` sub-dictionary of a recommendation (exactly the three keys
built by `_latest_reco_from_finnhub`, or absent as a whole). -/
structure Percent where
  buy : ℚ
  hold : ℚ
  sell : ℚ
deriving DecidableEq, Repr

/-- A recommendation dictionary as returned by
`FinnhubAnalystProvider.recommendation` (the `as_of` field is unused by
`_analyst_maybe`). -/
structure Reco where
  counts : Counts
  percent : Option Percent
  total : Option ℤ
deriving DecidableEq, Repr

/-- A price-target dictionary as returned by `_yahoo_price_target` (the
`as_of` field is always `None` and unused). -/
structure PriceTarget where
  avg_target : Option ℚ
  median : Option ℚ
  high : Option ℚ
  low : Option ℚ
deriving DecidableEq, Repr

/-- The five analyst fields `_analyst_maybe` returns. -/
structure AnalystFields where
  avg_target : Option ℚ
  buy_pct : Option ℚ
  hold_pct : Option ℚ
  sell_pct : Option ℚ
  analyst_total : Option ℤ
deriving DecidableEq, Repr

/-- A cached `_analyst_cache` payload: the five fields plus the `_ts`
resolution timestamp (seconds). -/
structure CachedPayload where
  fields : AnalystFields
  ts : ℚ
deriving DecidableEq, Repr

/-- Embedding of `self._analyst_cache.get(symbol)` over the dict modelled as an
association list. -/
def cacheLookup (cache : List (String × CachedPayload)) (sym : String) :
    Option CachedPayload :=
  (cache.find? (fun p => p.1 == sym)).map (fun p => p.2)

/-- Embedding of `self._analyst_cache[symbol] = payload`: replace the binding if present,
else add it. -/
def cacheInsert : List (String × CachedPayload) → String → CachedPayload →
    List (String × CachedPayload)
  | [], sym, v => [(sym, v)]
  | (k, w) :: rest, sym, v =>
    if k == sym then (sym, v) :: rest else (k, w) :: cacheInsert rest sym v

/-- Python `x != 0 and x is not None` truthiness of the derived `total`. -/
def totalTruthy : Option ℤ → Bool
  | Option.none => false
  | some t => decide (t ≠ 0)

/-- Embedding of `round(float(x), 2)` mapped over an optional value (`r2` in
`_analyst_maybe`). -/
def r2 (x : Option ℚ) : Option ℚ := x.map (pyRound 2)

/-- The field-derivation part of `_analyst_maybe` (lines 447-488): extract
`avg_target` (Python `or` makes both `None` and `0.0` fall through to the
absent `targetMean` key, i.e. to `None`), derive `total` from summed counts
when it is missing or zero, derive the three percentages from counts when
they are absent, and round.  `recD` is the value of
`self._analyst.recommendation(symbol) or {}` (that call has no `try` around
it on any frame, so an exception propagates — see `analystFetch`); `pt` is
`self._analyst.price_target(symbol) or {}`, which catches internally and
never raises. -/
def deriveFields (recD : Option Reco) (pt : Option PriceTarget) : AnalystFields :=
  -- avg_target = pt.get("avg_target") or pt.get("targetMean")
  let avgTarget : Option ℚ :=
    match pt with
    | Option.none => Option.none
    | some p =>
      match p.avg_target with
      | some x => if x = 0 then Option.none else some x
      | Option.none => Option.none
  -- perc = rec.get("percent") or {}
  let perc : Option Percent := recD.bind Reco.percent
  let buyP0 := perc.map Percent.buy
  let holdP0 := perc.map Percent.hold
  let sellP0 := perc.map Percent.sell
  let total0 : Option ℤ := recD.bind Reco.total
  -- counts = rec.get("counts") or {}   ({} is falsy)
  let countsOpt : Option Counts := recD.map Reco.counts
  -- if (not total or total == 0) and counts: total = sum of the five counts
  let total1 : Option ℤ :=
    if (total0.isNone || total0 == some 0) && countsOpt.isSome then
      countsOpt.map (fun c => c.strongBuy + c.buy + c.hold + c.sell + c.strongSell)
    else total0
  -- if ((buy_pct is None and hold_pct is None and sell_pct is None) or not perc)
  --    and counts and total: derive the percentages from counts
  let deriveP := ((buyP0.isNone && holdP0.isNone && sellP0.isNone) || perc.isNone)
      && countsOpt.isSome && totalTruthy total1
  let pcts : Option ℚ × Option ℚ × Option ℚ :=
    if deriveP then
      match countsOpt, total1 with
      | some c, some t =>
        (if t ≠ 0 then some (100 * ((c.strongBuy + c.buy : ℤ) : ℚ) / (t : ℚ)) else Option.none,
         if t ≠ 0 then some (100 * ((c.hold : ℤ) : ℚ) / (t : ℚ)) else Option.none,
         if t ≠ 0 then some (100 * ((c.sell + c.strongSell : ℤ) : ℚ) / (t : ℚ)) else Option.none)
      | _, _ => (buyP0, holdP0, sellP0)
    else (buyP0, holdP0, sellP0)
  AnalystFields.mk (r2 avgTarget) (r2 pcts.1) (r2 pcts.2.1) (r2 pcts.2.2) total1

/-- The fetch path of `_analyst_maybe`: resolve the provider outcomes (the
`recommendation` call can raise, which propagates), derive the five fields,
cache the payload tagged `_ts = now`, and return the fields together with the
updated cache and the invoked flag. -/
def analystFetch (cache : List (String × CachedPayload)) (sym : String) (now : ℚ)
    (recOutcome : Except Unit (Option Reco)) (pt : Option PriceTarget) :
    Except Unit (AnalystFields × List (String × CachedPayload) × Bool) := do
  let recD ← recOutcome
  let payload : CachedPayload := CachedPayload.mk (deriveFields recD pt) now
  Except.ok (payload.fields, cacheInsert cache sym payload, true)

/-- Embedding of `DataStore._analyst_maybe` (lines 417-491).  The returned `Bool` records
whether the external analyst provider was invoked (the cache-hit path returns
the cached consensus fields without any provider call).  A cached entry is
fresh when `(now - ts).total_seconds() <= 3600` (60-minute TTL). -/
def analystMaybe (cache : List (String × CachedPayload)) (sym : String) (now : ℚ)
    (recOutcome : Except Unit (Option Reco)) (pt : Option PriceTarget) :
    Except Unit (AnalystFields × List (String × CachedPayload) × Bool) :=
  match cacheLookup cache sym with
  | some c =>
    if now - c.ts ≤ 3600 then Except.ok (c.fields, cache, false)
    else analystFetch cache sym now recOutcome pt
  | Option.none => analystFetch cache sym now recOutcome pt

/-- The Yahoo `info` keys `_yahoo_price_target` reads (each `None` when the
key is absent). -/
structure YInfo where
  targetMeanPrice : Option ℚ
  targetMean : Option ℚ
  targetMedianPrice : Option ℚ
  targetMedian : Option ℚ
  targetHighPrice : Option ℚ
  targetHigh : Option ℚ
  targetLowPrice : Option ℚ
  targetLow : Option ℚ
deriving DecidableEq, Repr

/-- The inner `pick` helper of `_yahoo_price_target`: first key whose value
is not `None`. -/
def pick2 (a b : Option ℚ) : Option ℚ :=
  match a with
  | some v => some v
  | Option.none => b

/-- Embedding of `_yahoo_price_target` (`finnhub_analyst.py` lines 86-119): pick the four
target statistics from `info`; when `avg_target` is absent but `high` and
`low` are present, fall back to their midpoint; return `None` when every
field is `None` (and when `yfinance` is unavailable or raises, modelled by
`info = none`). -/
def yahooPriceTarget (info : Option YInfo) : Option PriceTarget :=
  match info with
  | Option.none => Option.none
  | some i =>
    let avg0 := pick2 i.targetMeanPrice i.targetMean
    let med := pick2 i.targetMedianPrice i.targetMedian
    let high := pick2 i.targetHighPrice i.targetHigh
    let low := pick2 i.targetLowPrice i.targetLow
    let avg : Option ℚ :=
      match avg0, high, low with
      | Option.none, some h, some l => some ((h + l) / 2)
      | a, _, _ => a
    if avg.isNone && med.isNone && high.isNone && low.isNone then Option.none
    else some (PriceTarget.mk avg med high low)

/-! ## Breadth calculator (`DataStore.risk_on`, lines 641-666) -/

/-- All watchlisted symbols in bucket-then-membership order. -/
def allSyms (buckets : List (String × List String)) : List String :=
  (buckets.map Prod.snd).flatten

/-- The accumulator step of the `risk_on` loop: skip a symbol whose history is
missing, empty or shorter than 200 bars (or whose SMA200 is `None`, which is
unreachable once 200 bars exist); otherwise count it as eligible and count it
as above when `close > sma200`. -/
def breadthStep (hist : String → Option (List Bar)) (acc : Nat × Nat) (sym : String) :
    Nat × Nat :=
  match hist sym with
  | Option.none => acc
  | some df =>
    if df.isEmpty then acc
    else if df.length < 200 then acc
    else
      match sma (df.map Bar.close) 200 with
      | Option.none => acc
      | some s =>
        (acc.1 + 1, acc.2 + (if lastD (df.map Bar.close) > s then 1 else 0))

/-- Embedding of `DataStore.risk_on` (cache-miss computation): `false` when no symbol is
eligible, else `100 * above / total > 60.0`. -/
def riskOnCalc (buckets : List (String × List String))
    (hist : String → Option (List Bar)) : Bool :=
  let tp := (allSyms buckets).foldl (breadthStep hist) (0, 0)
  if tp.1 = 0 then false
  else decide ((100 : ℚ) * tp.2 / tp.1 > 60)

/-! ## Stale-earnings filter and target distance (`signals`, lines 535-565) -/

/-- Lines 547-554 of `signals`: `if ne:` (truthiness — `None` and the empty
string are falsy) `... if ne < date.today().isoformat(): ne = None`.  ISO
date strings are compared with Python string comparison. -/
def staleEarningsFilter (ne : Option String) (todayIso : String) : Option String :=
  match ne with
  | Option.none => Option.none
  | some s => if s ≠ "" ∧ s < todayIso then Option.none else some s

/-- Lines 555-565 of `signals`: `dist_to_target_pct` is
`round((avg_target / close - 1) * 100, 2)` when both the (rounded) close and
`avg_target` are present and the close is nonzero; `None` otherwise.  The
division is syntactically guarded by `if cp != 0`, so no `ZeroDivisionError`
can occur. -/
def distToTarget (avgTarget closeR : Option ℚ) : Option ℚ :=
  match avgTarget, closeR with
  | some at_, some cp =>
    if cp ≠ 0 then some (pyRound 2 ((at_ / cp - 1) * 100)) else Option.none
  | _, _ => Option.none

/-! ## Calendar dates and their ISO (`YYYY-MM-DD`) encoding

The pipeline carries earnings dates as ISO strings and compares them with
Python string comparison (`ne < date.today().isoformat()`).  To relate that to
chronological order we model calendar dates and their ISO rendering. -/

/-- A calendar date. -/
structure YMDate where
  year : Nat
  month : Nat
  day : Nat
deriving DecidableEq, Repr

/-- Four-digit years and in-range month/day fields (what
`date.isoformat()` produces). -/
def YMDate.validIso (d : YMDate) : Prop :=
  1000 ≤ d.year ∧ d.year ≤ 9999 ∧ 1 ≤ d.month ∧ d.month ≤ 12 ∧ 1 ≤ d.day ∧ d.day ≤ 31

instance (d : YMDate) : Decidable d.validIso := by
  unfold YMDate.validIso; infer_instance

/-- Chronological (lexicographic year/month/day) strict order on dates. -/
def YMDate.before (a b : YMDate) : Prop :=
  a.year < b.year ∨ (a.year = b.year ∧ (a.month < b.month ∨
    (a.month = b.month ∧ a.day < b.day)))

instance (a b : YMDate) : Decidable (a.before b) := by
  unfold YMDate.before; infer_instance

/-- The ASCII digit character of `n` (meaningful for `n < 10`). -/
def dchar (n : Nat) : Char := Char.ofNat (48 + n)

/-- Two-digit zero-padded rendering. -/
def pad2 (n : Nat) : List Char := [dchar (n / 10), dchar (n % 10)]

/-- Four-digit zero-padded rendering. -/
def pad4 (n : Nat) : List Char :=
  [dchar (n / 1000), dchar (n / 100 % 10), dchar (n / 10 % 10), dchar (n % 10)]

/-- Embedding of `date.isoformat()`: the `YYYY-MM-DD` string. -/
def YMDate.iso (d : YMDate) : String :=
  String.mk (pad4 d.year ++ '-' :: (pad2 d.month ++ '-' :: pad2 d.day))

/-! ## The signal assembler (`DataStore.signals`, lines 493-579) -/

/-- The fundamentals dictionary returned by `_fundamentals` (internally
guarded: any failure yields all `None`). -/
structure FundFields where
  revenue_growth_pct : Option ℚ
  profit_margin_pct : Option ℚ
  market_cap : Option ℚ
  revenue : Option ℚ
deriving DecidableEq, Repr

/-- The all-`None` fundamentals record. -/
def blankFund : FundFields := FundFields.mk Option.none Option.none Option.none Option.none

/-- The analyst block of an output record, present only when
`include_analyst` is true. -/
structure AnalystBlock where
  fields : AnalystFields
  next_earnings : Option String
  dist_to_target_pct : Option ℚ
deriving DecidableEq, Repr

/-- One dictionary of the `signals` output list. -/
structure OutRecord where
  symbol : String
  bucket : String
  close : Option ℚ
  sma50 : Option ℚ
  sma200 : Option ℚ
  above50 : Bool
  above200 : Bool
  entry_ok : Bool
  delta_sma50_pct : Option ℚ
  delta_sma200_pct : Option ℚ
  rsi14 : POF
  rsi_zone : Option String
  macd : Option ℚ
  macd_signal : Option ℚ
  macd_hist : Option ℚ
  w52_high : Option ℚ
  w52_low : Option ℚ
  pct_to_52w_high : Option ℚ
  pct_from_52w_low : Option ℚ
  pivot : Option ℚ
  vol_avg20_ratio : POF
  reentry : Option Bool
  analyst : Option AnalystBlock
  fund : FundFields
deriving DecidableEq, Repr

/-- The external world as the core observes it during one assembly pass:
price histories, the outcomes of the analyst-provider calls, the Yahoo
fallbacks, fundamentals, today's date and a clock for the successive
`datetime.utcnow()` reads inside `_analyst_maybe`.

`recOutcome` is the outcome of `FinnhubAnalystProvider.recommendation`; it is
the one external call in the pass with no `try/except` on any frame, so
`Except.error ()` aborts the batch.  `nextEarnings` is the value of
`self._analyst.next_earnings(sym)` after the surrounding `try` (exceptions
already collapsed to `None`); `earningsFallback` is
`_yahoo_next_earnings_fallback` (internally guarded, never raises). -/
structure World where
  hist : String → Option (List Bar)
  recOutcome : String → Except Unit (Option Reco)
  priceTarget : String → Option PriceTarget
  nextEarnings : String → Option String
  earningsFallback : String → Option String
  fund : String → FundFields
  todayIso : String
  clock : Nat → ℚ

/-- Embedding of `round(x, nd) if isinstance(x, (int, float)) else x` over an optional
float. -/
def rOpt (nd : Nat) (x : Option ℚ) : Option ℚ := x.map (pyRound nd)

/-- Embedding of `round(x, 2) if isinstance(x, (int, float)) else x` where the value may
also be NaN (`isinstance(nan, float)` is true and `round(nan, 2)` is NaN). -/
def rPof : POF → POF
  | POF.none => POF.none
  | POF.nan => POF.nan
  | POF.num q => POF.num (pyRound 2 q)

/-- The per-symbol body of the `signals` loop (lines 505-578): round the base
and indicator fields of the computed `SignalRow` into the output dictionary;
when `include_analyst` is set, merge `_analyst_maybe` (threading the analyst
cache and possibly raising), resolve the next-earnings date with the Yahoo
fallback, null it when it is lexicographically before today, and attach
`dist_to_target_pct`; finally attach the fundamentals. -/
def buildRecord (w : World) (includeAnalyst : Bool) (row : SignalRow)
    (cache : List (String × CachedPayload)) (callIdx : Nat) :
    Except Unit (OutRecord × List (String × CachedPayload) × Nat) := do
  let closeR := rOpt 2 row.close
  let analystPart : Option AnalystBlock × List (String × CachedPayload) × Nat ←
    if includeAnalyst then do
      let (fields, cache2, _) ←
        analystMaybe cache row.symbol (w.clock callIdx) (w.recOutcome row.symbol)
          (w.priceTarget row.symbol)
      let ne0 :=
        match w.nextEarnings row.symbol with
        | Option.none => w.earningsFallback row.symbol
        | some d => some d
      let ne := staleEarningsFilter ne0 w.todayIso
      let dist := distToTarget fields.avg_target closeR
      pure (some (AnalystBlock.mk fields ne dist), cache2, callIdx + 1)
    else pure (Option.none, cache, callIdx)
  let recd : OutRecord :=
    OutRecord.mk row.symbol row.bucket closeR (rOpt 2 row.sma50) (rOpt 2 row.sma200)
      row.above50 row.above200 row.entry_ok
      (rOpt 2 row.delta_sma50_pct) (rOpt 2 row.delta_sma200_pct)
      row.rsi14 row.rsi_zone
      (rOpt 4 row.macd) (rOpt 4 row.macd_signal) (rOpt 4 row.macd_hist)
      (rOpt 2 row.w52_high) (rOpt 2 row.w52_low)
      (rOpt 2 row.pct_to_52w_high) (rOpt 2 row.pct_from_52w_low)
      (rOpt 2 row.pivot) (rPof row.vol_avg20_ratio) row.reentry
      analystPart.1 (w.fund row.symbol)
  pure (recd, analystPart.2)

/-- The `signals` iteration over the flattened `(symbol, bucket)` pairs,
threading the analyst cache and the clock index.  `_calc_signal` is not
wrapped in any `try`, so an exception in it (or in `_analyst_maybe`) aborts
the whole batch. -/
def signalsGo (w : World) (includeAnalyst : Bool) (rk : Bool) :
    List (String × String) → List (String × CachedPayload) → Nat →
    Except Unit (List OutRecord)
  | [], _, _ => Except.ok []
  | (sym, bucket) :: rest, cache, callIdx => do
    let row ← calcSignal sym bucket (w.hist sym) rk
    let (recd, cache2, idx2) ← buildRecord w includeAnalyst row cache callIdx
    let tail ← signalsGo w includeAnalyst rk rest cache2 idx2
    pure (recd :: tail)

/-- The watchlist pairs in the order `signals` visits them. -/
def watchPairs (buckets : List (String × List String)) : List (String × String) :=
  (buckets.map (fun p => p.2.map (fun s => (s, p.1)))).flatten

/-- Embedding of `DataStore.signals` over one assembly pass: the `risk_on` breadth flag is
computed once (the breadth cache shares it across all `_calc_signal` calls of
the pass) and every watchlist entry yields one record, unless an uncaught
exception aborts the batch. -/
def signalsFull (buckets : List (String × List String)) (w : World)
    (includeAnalyst : Bool) : Except Unit (List OutRecord) :=
  let rk := riskOnCalc buckets w.hist
  signalsGo w includeAnalyst rk (watchPairs buckets) [] 0

/-! ## Watchlist mutations (`data_store.py` lines 188-256, `security/id_map.py`) -/

/-- The `ISIN_TO_SYMBOL` table of `security/id_map.py`. -/
def isinToSymbol : List (String × String) :=
  [("IE00BP3QZ825", "IS3R.DE"), ("IE00BP3QZ825:GBP", "IWFM.L"),
   ("IE00BP3QZ825:USD", "IWMO.L")]

/-- The `WKN_TO_SYMBOL` table of `security/id_map.py` (empty: every mapping
is commented out). -/
def wknToSymbol : List (String × String) := []

/-- Python `str.isalnum()` (ASCII approximation; nonempty and all
alphanumeric). -/
def pyIsAlnum (s : String) : Bool :=
  !s.isEmpty && s.toList.all Char.isAlphanum

/-- Embedding of `resolve_security`: empty input is falsy and unknown; a 12-character
alphanumeric code is treated as an ISIN and must be in the table; a
6-character alphanumeric code is looked up as a WKN but falls through to the
input itself on a miss; anything else is already a symbol. -/
def resolveSecurity (input : String) : Option String :=
  if input.isEmpty then Option.none
  else
    let s := input.trim.toUpper
    if s.length == 12 && pyIsAlnum s then
      (isinToSymbol.find? (fun p => p.1 == s)).map (fun p => p.2)
    else if s.length == 6 && pyIsAlnum s then
      match wknToSymbol.find? (fun p => p.1 == s) with
      | some m => some m.2
      | Option.none => some s
    else some s

/-- The mutable watchlist state: the `_tickers` keys and the `_buckets`
mapping (an insertion-ordered dict modelled as an association list). -/
structure WLState where
  tickers : List String
  buckets : List (String × List String)
deriving DecidableEq, Repr

/-- Python `name.strip().lower()`, the bucket-key normalization. -/
def normKey (s : String) : String := s.trim.toLower

/-- Embedding of `create_bucket`: add an empty list under the normalized key when absent
(dict insertion order: new keys go to the end). -/
def createBucket (st : WLState) (name : String) : WLState :=
  let key := normKey name
  if st.buckets.any (fun p => p.1 == key) then st
  else WLState.mk st.tickers (st.buckets ++ [(key, [])])

/-- The `for lst in self._buckets.values(): if sym in lst: lst.remove(sym)`
loop: remove the first occurrence of `sym` from every bucket list. -/
def eraseEverywhere (bk : List (String × List String)) (sym : String) :
    List (String × List String) :=
  bk.map (fun p => (p.1, p.2.erase sym))

/-- Embedding of `self._buckets[key].append(sym)` on the association list (the key always
exists when this runs; a missing key leaves the state unchanged). -/
def appendTo : List (String × List String) → String → String →
    List (String × List String)
  | [], _, _ => []
  | (k, l) :: rest, key, sym =>
    if k == key then (k, l ++ [sym]) :: rest else (k, l) :: appendTo rest key sym

/-- Embedding of `self._buckets[key].extend(ms)` on the association list. -/
def extendAt : List (String × List String) → String → List String →
    List (String × List String)
  | [], _, _ => []
  | (k, l) :: rest, key, ms =>
    if k == key then (k, l ++ ms) :: rest else (k, l) :: extendAt rest key ms

/-- Embedding of `self._buckets.pop(key)`: the removed member list and the remaining dict,
`None` when the key is absent. -/
def popKey : List (String × List String) → String →
    Option (List String × List (String × List String))
  | [], _ => Option.none
  | (k, l) :: rest, key =>
    if k == key then some (l, rest)
    else (popKey rest key).map (fun q => (q.1, (k, l) :: q.2))

/-- Python `(bucket or "swing")`: `None` and the empty string are falsy. -/
def bucketOrSwing : Option String → String
  | Option.none => "swing"
  | some b => if b.isEmpty then "swing" else b

/-- Embedding of `add_ticker` (lines 214-233): resolve the identifier (an unresolved one
raises before any mutation, leaving the state unchanged), register the
ticker, create the target bucket when missing, remove the symbol from every
bucket, then append it to the target. -/
def addTicker (st : WLState) (symbolOrId : String) (bucket : Option String) : WLState :=
  match resolveSecurity symbolOrId with
  | Option.none => st
  | some resolved =>
    let sym := resolved.toUpper
    let st1 := WLState.mk
      (if st.tickers.contains sym then st.tickers else st.tickers ++ [sym]) st.buckets
    let target := normKey (bucketOrSwing bucket)
    let st2 := createBucket st1 target
    WLState.mk st2.tickers (appendTo (eraseEverywhere st2.buckets sym) target sym)

/-- Embedding of `remove_ticker` (lines 235-242): drop the ticker and remove the symbol
from every bucket. -/
def removeTicker (st : WLState) (symbol : String) : WLState :=
  let sym := symbol.toUpper
  WLState.mk (st.tickers.erase sym) (eraseEverywhere st.buckets sym)

/-- Embedding of `move_ticker` (lines 244-256): unknown symbols are ignored; otherwise
create the target bucket when missing, remove the symbol everywhere and
append it to the target. -/
def moveTicker (st : WLState) (symbol bucket : String) : WLState :=
  let sym := symbol.toUpper
  if st.tickers.contains sym then
    let target := normKey bucket
    let st2 := createBucket st target
    WLState.mk st2.tickers (appendTo (eraseEverywhere st2.buckets sym) target sym)
  else st

/-- Embedding of `delete_bucket` (lines 205-211): pop the bucket when present and move its
members into `avoid` (`setdefault("avoid", []).extend(moved)`). -/
def deleteBucket (st : WLState) (name : String) : WLState :=
  let key := normKey name
  match popKey st.buckets key with
  | Option.none => st
  | some q =>
    if q.2.any (fun p => p.1 == "avoid") then
      WLState.mk st.tickers (extendAt q.2 "avoid" q.1)
    else
      WLState.mk st.tickers (q.2 ++ [("avoid", q.1)])

/-- The four watchlist mutations of claim C8. -/
inductive WlMut where
  | add (symbolOrId : String) (bucket : Option String)
  | move (symbol bucket : String)
  | remove (symbol : String)
  | dropBucket (name : String)
deriving DecidableEq, Repr

/-- Dispatch a mutation. -/
def applyMut (st : WLState) : WlMut → WLState
  | WlMut.add s b => addTicker st s b
  | WlMut.move s b => moveTicker st s b
  | WlMut.remove s => removeTicker st s
  | WlMut.dropBucket n => deleteBucket st n

/-- Total number of occurrences of `s` across all bucket member lists. -/
def countAll (bk : List (String × List String)) (s : String) : Nat :=
  (bk.map (fun p => p.2.count s)).sum

/-- The watchlist invariant: every symbol occurs in at most one bucket's
member list (globally at most once). -/
def oneBucketInv (st : WLState) : Prop :=
  ∀ s : String, countAll st.buckets s ≤ 1

/-! ## Spec-side model of the claimed 24-hour `avg_target` fallback cache

Claim C2 describes a long-lived on-disk cache and a secondary target-price
source consulted when the primary provider yields no `avg_target`.  No such
code exists in the repository; the following definition follows the words of
the spec (section 4.2, step 4) so the claimed behaviour can be compared with
the code's. -/

/-- Modelled from the spec: step 4 of the analyst-consensus algorithm.  The
spec's 24-hour on-disk cache maps a symbol to a cached target and its
timestamp; when `avg_target` is still missing after the primary provider, a
fresh (≤ 24h) entry supplies it, and otherwise the secondary fallback source
is queried and, on success, populates both the result and the cache.  This
code is absent from the repository (`_analyst_maybe` has no such cache); the
definition exists only to state what the claim requires. -/
def specResolveAvgTarget (avg0 : Option ℚ) (cache24 : List (String × (ℚ × ℚ)))
    (sym : String) (now : ℚ) (fallbackTarget : Option ℚ) :
    Option ℚ × List (String × (ℚ × ℚ)) :=
  match avg0 with
  | some v => (some v, cache24)
  | Option.none =>
    match (cache24.find? (fun p => p.1 == sym)).map (fun p => p.2) with
    | some e =>
      if now - e.2 ≤ 86400 then (some e.1, cache24)
      else
        match fallbackTarget with
        | some t => (some t, (sym, (t, now)) :: (cache24.filter (fun p => !(p.1 == sym))))
        | Option.none => (Option.none, cache24)
    | Option.none =>
      match fallbackTarget with
      | some t => (some t, (sym, (t, now)) :: (cache24.filter (fun p => !(p.1 == sym))))
      | Option.none => (Option.none, cache24)

/-- Modelled from the spec: `_analyst_maybe` as claim C2 describes it, i.e.
the code's resolution with step 4 (the 24-hour fallback cache) inserted.  The
60-minute cache hit path is unchanged; on a fetch, a missing `avg_target` is
resolved through `specResolveAvgTarget`. -/
def analystMaybeSpec24h (cache : List (String × CachedPayload))
    (cache24 : List (String × (ℚ × ℚ))) (sym : String) (now : ℚ)
    (recOutcome : Except Unit (Option Reco)) (pt : Option PriceTarget)
    (fallbackTarget : Option ℚ) :
    Except Unit (AnalystFields × List (String × CachedPayload) × List (String × (ℚ × ℚ)) × Bool) := do
  match cacheLookup cache sym with
  | some c =>
    if now - c.ts ≤ 3600 then Except.ok (c.fields, cache, cache24, false)
    else do
      let (fields, cache2, invoked) ← analystFetch cache sym now recOutcome pt
      let rt := specResolveAvgTarget fields.avg_target cache24 sym now fallbackTarget
      Except.ok (AnalystFields.mk (r2 rt.1) fields.buy_pct fields.hold_pct fields.sell_pct
        fields.analyst_total, cache2, rt.2, invoked)
  | Option.none => do
      let (fields, cache2, invoked) ← analystFetch cache sym now recOutcome pt
      let rt := specResolveAvgTarget fields.avg_target cache24 sym now fallbackTarget
      Except.ok (AnalystFields.mk (r2 rt.1) fields.buy_pct fields.hold_pct fields.sell_pct
        fields.analyst_total, cache2, rt.2, invoked)

/-! ## Derived notions used by the theorems -/

/-- The all-`None` analyst snapshot (what `_analyst_maybe` produces when both
provider calls return nothing). -/
def blankAnalystFields : AnalystFields :=
  AnalystFields.mk Option.none Option.none Option.none Option.none Option.none

/-- Every payload cached so far carries the all-`None` analyst fields (the
cache state reachable under a total data outage). -/
def BlankCache (cache : List (String × CachedPayload)) : Prop :=
  ∀ e ∈ cache, e.2.fields = blankAnalystFields

/-- The record `signals` emits for a symbol during a total data outage with
enrichment requested: the no-data indicator bundle, `None` analyst fields,
no earnings date, no target distance and blank fundamentals. -/
def outageRecord (sym bucket : String) : OutRecord :=
  OutRecord.mk sym bucket Option.none Option.none Option.none false false false
    Option.none Option.none POF.none Option.none Option.none Option.none Option.none
    Option.none Option.none Option.none Option.none Option.none POF.none Option.none
    (some (AnalystBlock.mk blankAnalystFields Option.none Option.none)) blankFund

/-- A total data outage in which every external source degrades to "no data"
(fetches fail into `None` rather than raising). -/
def OutageWorld (w : World) : Prop :=
  (∀ s, w.hist s = Option.none) ∧ (∀ s, w.recOutcome s = Except.ok Option.none) ∧
  (∀ s, w.priceTarget s = Option.none) ∧ (∀ s, w.nextEarnings s = Option.none) ∧
  (∀ s, w.earningsFallback s = Option.none) ∧ (∀ s, w.fund s = blankFund)

/-- A symbol eligible for the breadth count: its history is present with at
least 200 bars. -/
def eligible200 (hist : String → Option (List Bar)) (sym : String) : Bool :=
  match hist sym with
  | some df => decide (200 ≤ df.length)
  | Option.none => false

/-- A symbol whose last close is strictly above its 200-bar SMA. -/
def above200Flag (hist : String → Option (List Bar)) (sym : String) : Bool :=
  match hist sym with
  | some df =>
    match sma (df.map Bar.close) 200 with
    | some s => decide (lastD (df.map Bar.close) > s)
    | Option.none => false
  | Option.none => false

end DashStore

deriving instance DecidableEq for Except

namespace DashStore

/-! ## Helper lemmas -/

theorem exbind_ok {α β : Type} (a : α) (k : α → Except Unit β) :
    (Except.ok a >>= k) = k a := rfl

theorem exbind_err {α β : Type} (k : α → Except Unit β) :
    ((Except.error () : Except Unit α) >>= k) = Except.error () := rfl

theorem exmap_ok {α β : Type} (f : α → β) (a : α) :
    Except.map f (Except.ok a : Except Unit α) = Except.ok (f a) := rfl

theorem analystFetch_ok (c : List (String × CachedPayload)) (sym : String) (now : ℚ)
    (r : Option Reco) (pt : Option PriceTarget) :
    analystFetch c sym now (Except.ok r) pt =
      Except.ok (deriveFields r pt,
        cacheInsert c sym (CachedPayload.mk (deriveFields r pt) now), true) := rfl

theorem analystFetch_err (c : List (String × CachedPayload)) (sym : String) (now : ℚ)
    (pt : Option PriceTarget) :
    analystFetch c sym now (Except.error ()) pt = Except.error () := rfl

theorem deriveFields_blank : deriveFields Option.none Option.none = blankAnalystFields := rfl

theorem cacheLookup_insert (c : List (String × CachedPayload)) (sym : String)
    (v : CachedPayload) : cacheLookup (cacheInsert c sym v) sym = some v := by
  induction c with
  | nil => simp [cacheInsert, cacheLookup]
  | cons hd tl ih =>
    by_cases h : hd.1 = sym
    · simp [cacheInsert, cacheLookup, h]
    · have hb : (hd.1 == sym) = false := by simp [h]
      obtain ⟨k, w⟩ := hd
      simp only at hb
      simp only [cacheInsert, hb, if_false, cond_false]
      simpa [cacheLookup, List.find?, hb] using ih

/-! ## Claim theorems -/

/-- C1: the claim says `above50` is computed as `close > sma50` with a `None`
SMA treated as **false**, so that a series with fewer than 50 observations has
`sma50 = None` and `above50 = false`.  The code substitutes the sentinel
`-1e18` for a missing SMA (`close > (sma50 if sma50 is not None else -1e18)`),
so any ordinary positive close compares **above** it: on a one-bar history the
code yields `sma50 = None` but `above50 = true`, contradicting the claim (and
the all-`False` empty-series branch of the same function).  This theorem
evaluates the embedded `_calc_signal` at that failing input. -/
theorem c1_above50_none_sma_is_true_bug :
    (calcSignal "X" "swing" (some [Bar.mk 1 2 1 100 5]) false).map SignalRow.sma50 =
      Except.ok Option.none ∧
    (calcSignal "X" "swing" (some [Bar.mk 1 2 1 100 5]) false).map SignalRow.above50 =
      Except.ok true := by decide

/-- C7 (counterexample): the claim says `rsi14` is either `None` or in
`[0, 100]` for every series.  On any nonempty series with fewer than
`period + 1 = 15` closes the rolling means are NaN, the guard
`val < 0 or val > 100` is false for NaN, and `round(nan, 2)` is NaN — so
`rsi14` is NaN, which is neither `None` nor a number in `[0, 100]`. -/
theorem c7_rsi_nan_counterexample :
    rsiCalc [1, 2, 3] 14 = POF.nan ∧ POF.nan ≠ POF.none := by decide

/-- C3 (counterexample): the claim says the volume ratio is `None` whenever
the 20-bar average is unavailable, in particular for series with fewer than
20 bars, and that the division is never performed on an unavailable
denominator.  For a one-bar history the rolling mean is NaN, which is truthy
and `!= 0` in Python, so the division **is** performed and the stored
`vol_avg20_ratio` is NaN, not `None`. -/
theorem c3_volratio_nan_counterexample :
    (calcSignal "Y" "swing" (some [Bar.mk 1 1 1 10 5]) false).map
        SignalRow.vol_avg20_ratio = Except.ok POF.nan ∧
      POF.nan ≠ POF.none := by decide

/-- C9 (counterexample): the claim says the assembly pass always completes
with a full record set even under total data outage.  The
`recommendation` call of the analyst provider is made with no `try/except`
on any frame (`_analyst_maybe` line 445, `signals` line 537), so a transport
exception raised there aborts the whole batch: with every price history
missing and the recommendation call raising, `signals` with enrichment
propagates the exception instead of returning records. -/
theorem c9_outage_raise_counterexample :
    signalsFull [("swing", ["NVDA"])]
      (World.mk (fun _ => Option.none) (fun _ => Except.error ()) (fun _ => Option.none)
        (fun _ => Option.none) (fun _ => Option.none) (fun _ => blankFund) "2026-10-12"
        (fun _ => 0)) true = Except.error () := by decide

/-- C2 (counterexample): the claim says that when the primary provider yields
no `avg_target`, a 24-hour cache is consulted and a secondary fallback source
populates both the snapshot and that cache, independently of the 60-minute
cache.  No such cache exists in `_analyst_maybe`: resolving a symbol at
`t = 0` (provider yields no target while a fallback source could supply 50)
and again at `t = 7200` (past the 60-minute TTL, within 24 hours) leaves
`avg_target = None` both times, whereas the spec-modelled resolver
(`analystMaybeSpec24h`) returns 50 at both times and retains it in the
24-hour cache. -/
theorem c2_no_24h_cache_counterexample :
    (analystMaybe [] "AAPL" 0 (Except.ok Option.none) Option.none =
      Except.ok (blankAnalystFields, [("AAPL", CachedPayload.mk blankAnalystFields 0)],
        true)) ∧
    (analystMaybe [("AAPL", CachedPayload.mk blankAnalystFields 0)] "AAPL" 7200
        (Except.ok Option.none) Option.none =
      Except.ok (blankAnalystFields, [("AAPL", CachedPayload.mk blankAnalystFields 7200)],
        true)) ∧
    ((analystMaybeSpec24h [] [] "AAPL" 0 (Except.ok Option.none) Option.none (some 50)).map
        (fun r => r.1.avg_target) = Except.ok (some 50)) ∧
    ((analystMaybeSpec24h [("AAPL", CachedPayload.mk blankAnalystFields 0)]
        [("AAPL", ((50 : ℚ), (0 : ℚ)))] "AAPL" 7200 (Except.ok Option.none) Option.none
        Option.none).map (fun r => r.1.avg_target) = Except.ok (some 50)) := by
  refine ⟨by decide, ?_, ?_, ?_⟩
  · have hlk : cacheLookup [("AAPL", CachedPayload.mk blankAnalystFields 0)] "AAPL" =
        some (CachedPayload.mk blankAnalystFields 0) := by decide
    rw [analystMaybe, hlk]
    norm_num
    rfl
  · rw [analystMaybeSpec24h]
    show (Except.map _
      (Except.bind (analystFetch [] "AAPL" 0 (Except.ok Option.none) Option.none) _)) = _
    rw [analystFetch_ok]
    simp only [Except.bind, deriveFields_blank, blankAnalystFields, specResolveAvgTarget, r2,
      Except.map, cacheLookup, List.find?, Option.map]
    norm_num [pyRound, rhe]
  · have hlk : cacheLookup [("AAPL", CachedPayload.mk blankAnalystFields 0)] "AAPL" =
        some (CachedPayload.mk blankAnalystFields 0) := by decide
    rw [analystMaybeSpec24h, hlk]
    norm_num
    rw [analystFetch_ok, exbind_ok]
    simp only [deriveFields_blank, blankAnalystFields, specResolveAvgTarget, r2, exmap_ok,
      Option.map]
    norm_num [pyRound, rhe]

/-- C10: `dist_to_target_pct` is `round((avg_target/close - 1)*100, 2)` exactly
when both the average target and the (rounded) close are present and the close
is nonzero; a missing value or a zero close yields `None`, and the division is
syntactically guarded by `cp != 0`, so it is never performed on a zero
denominator. -/
theorem c10_dist_to_target (a c : ℚ) :
    (c ≠ 0 → distToTarget (some a) (some c) = some (pyRound 2 ((a / c - 1) * 100))) ∧
    (distToTarget (some a) (some 0) = Option.none) ∧
    (∀ x : Option ℚ, distToTarget Option.none x = Option.none) ∧
    (∀ x : Option ℚ, distToTarget x Option.none = Option.none) := by
  refine ⟨?_, ?_, ?_, ?_⟩
  · intro h; simp [distToTarget, h]
  · simp [distToTarget]
  · intro x; cases x <;> simp [distToTarget]
  · intro x; cases x <;> simp [distToTarget]

/-- Witness for C10 at `avg_target = 110`, `close = 100` and `close = 0`. -/
theorem c10_dist_to_target_witness :
    (100 : ℚ) ≠ 0 ∧ distToTarget (some 110) (some 100) = some 10 ∧
      distToTarget (some 110) (some 0) = Option.none := by
  have h := c10_dist_to_target 110 100
  refine ⟨by norm_num, ?_, h.2.1⟩
  rw [h.1 (by norm_num)]
  norm_num [pyRound, rhe]

/-- C6: starting from a cache with no entry for the symbol, the first
resolution invokes the provider and caches the five consensus fields under
`_ts = t0`; a second resolution at `t1` with `t1 - t0 ≤ 3600` seconds is
served from the TTL cache — the provider is not invoked and the cached
consensus fields are returned unchanged — while a resolution with
`t1 - t0 > 3600` invokes the provider again. -/
theorem c6_ttl_cache (c0 : List (String × CachedPayload)) (sym : String) (t0 t1 : ℚ)
    (r1 : Option Reco) (pt1 : Option PriceTarget) (rec2 : Except Unit (Option Reco))
    (pt2 : Option PriceTarget) (hmiss : cacheLookup c0 sym = Option.none) :
    ∃ f1 c1, analystMaybe c0 sym t0 (Except.ok r1) pt1 = Except.ok (f1, c1, true) ∧
      (t1 - t0 ≤ 3600 → analystMaybe c1 sym t1 rec2 pt2 = Except.ok (f1, c1, false)) ∧
      (3600 < t1 - t0 → ∀ r2 : Option Reco, rec2 = Except.ok r2 →
        ∃ f2 c2, analystMaybe c1 sym t1 rec2 pt2 = Except.ok (f2, c2, true)) := by
  refine ⟨deriveFields r1 pt1,
    cacheInsert c0 sym (CachedPayload.mk (deriveFields r1 pt1) t0), ?_, ?_, ?_⟩
  · rw [analystMaybe, hmiss]
    exact analystFetch_ok c0 sym t0 r1 pt1
  · intro hle
    rw [analystMaybe, cacheLookup_insert]
    simp only [if_pos hle]
  · intro hgt r2 hr2
    subst hr2
    rw [analystMaybe, cacheLookup_insert]
    simp only [if_neg (not_le.mpr hgt)]
    rw [analystFetch_ok]
    exact ⟨_, _, rfl⟩

/-- Witness for C6: a cold cache, a first resolution at `t0 = 0` and a second
at `t1 = 1800` (30 minutes later). -/
theorem c6_ttl_cache_witness :
    cacheLookup [] "NVDA" = Option.none ∧
    (∃ f1 c1,
      analystMaybe [] "NVDA" 0 (Except.ok Option.none) Option.none =
        Except.ok (f1, c1, true) ∧
      ((1800 : ℚ) - 0 ≤ 3600 →
        analystMaybe c1 "NVDA" 1800 (Except.ok Option.none) Option.none =
          Except.ok (f1, c1, false)) ∧
      (3600 < (1800 : ℚ) - 0 → ∀ r2 : Option Reco,
        (Except.ok Option.none : Except Unit (Option Reco)) = Except.ok r2 →
        ∃ f2 c2, analystMaybe c1 "NVDA" 1800 (Except.ok Option.none) Option.none =
          Except.ok (f2, c2, true))) :=
  ⟨rfl, c6_ttl_cache [] "NVDA" 0 1800 Option.none Option.none (Except.ok Option.none)
    Option.none rfl⟩


theorem list_lt_nil_nil : ¬(([] : List Char) < []) := by
  intro h
  cases h

theorem list_lt_cons_iff {a b : Char} {as bs : List Char} :
    (a :: as) < (b :: bs) ↔ (a < b ∨ (a = b ∧ as < bs)) := by
  constructor
  · intro h
    cases h with
    | cons h => exact Or.inr ⟨rfl, h⟩
    | rel h => exact Or.inl h
  · rintro (h | ⟨rfl, h⟩)
    · exact List.Lex.rel h
    · exact List.Lex.cons h

theorem list_lt_append_iff (l1 r1 : List Char) :
    ∀ (l2 : List Char) (r2 : List Char), l1.length = l2.length →
      ((l1 ++ r1) < (l2 ++ r2) ↔ (l1 < l2 ∨ (l1 = l2 ∧ r1 < r2))) := by
  induction l1 with
  | nil =>
    intro l2 r2 h
    cases l2 with
    | nil =>
      simp [list_lt_nil_nil]
    | cons b bs => simp at h
  | cons a as ih =>
    intro l2 r2 h
    cases l2 with
    | nil => simp at h
    | cons b bs =>
      simp only [List.cons_append]
      rw [list_lt_cons_iff, list_lt_cons_iff, ih bs r2 (by simpa using h)]
      simp only [List.cons.injEq]
      tauto

theorem dchar_lt_iff {a b : Nat} (ha : a < 10) (hb : b < 10) :
    dchar a < dchar b ↔ a < b := by
  interval_cases a <;> interval_cases b <;> decide

theorem dchar_eq_iff {a b : Nat} (ha : a < 10) (hb : b < 10) :
    dchar a = dchar b ↔ a = b := by
  interval_cases a <;> interval_cases b <;> decide
theorem pad2_lt_iff {x y : Nat} (hx : x < 100) (hy : y < 100) :
    (pad2 x : List Char) < pad2 y ↔ x < y := by
  unfold pad2
  rw [list_lt_cons_iff, list_lt_cons_iff,
    dchar_lt_iff (by omega) (by omega), dchar_eq_iff (by omega) (by omega),
    dchar_lt_iff (by omega) (by omega), dchar_eq_iff (by omega) (by omega)]
  simp [list_lt_nil_nil]
  omega

theorem pad2_eq_iff {x y : Nat} (hx : x < 100) (hy : y < 100) :
    pad2 x = pad2 y ↔ x = y := by
  unfold pad2
  simp only [List.cons.injEq, and_true,
    dchar_eq_iff (show x / 10 < 10 by omega) (show y / 10 < 10 by omega),
    dchar_eq_iff (show x % 10 < 10 by omega) (show y % 10 < 10 by omega)]
  omega

theorem pad4_eq_append (x : Nat) : pad4 x = pad2 (x / 100) ++ pad2 (x % 100) := by
  have e1 : x / 100 / 10 = x / 1000 := by omega
  have e2 : x / 100 % 10 = x / 100 % 10 := rfl
  have e3 : x % 100 / 10 = x / 10 % 10 := by omega
  have e4 : x % 100 % 10 = x % 10 := by omega
  simp [pad4, pad2, e1, e3, e4]

theorem pad4_lt_iff {x y : Nat} (hx : x < 10000) (hy : y < 10000) :
    (pad4 x : List Char) < pad4 y ↔ x < y := by
  rw [pad4_eq_append, pad4_eq_append,
    list_lt_append_iff _ _ _ _ (by simp [pad2]),
    pad2_lt_iff (by omega) (by omega), pad2_eq_iff (by omega) (by omega),
    pad2_lt_iff (by omega) (by omega)]
  omega

theorem pad4_eq_iff {x y : Nat} (hx : x < 10000) (hy : y < 10000) :
    pad4 x = pad4 y ↔ x = y := by
  rw [pad4_eq_append, pad4_eq_append]
  constructor
  · intro h
    have hlen : (pad2 (x / 100)).length = (pad2 (y / 100)).length := by simp [pad2]
    obtain ⟨h1, h2⟩ := List.append_inj h hlen
    have := (pad2_eq_iff (show x / 100 < 100 by omega) (show y / 100 < 100 by omega)).mp h1
    have := (pad2_eq_iff (show x % 100 < 100 by omega) (show y % 100 < 100 by omega)).mp h2
    omega
  · intro h; rw [h]
theorem iso_lt_iff {a b : YMDate} (ha : a.validIso) (hb : b.validIso) :
    a.iso < b.iso ↔ a.before b := by
  obtain ⟨ha1, ha2, ha3, ha4, ha5, ha6⟩ := ha
  obtain ⟨hb1, hb2, hb3, hb4, hb5, hb6⟩ := hb
  rw [YMDate.iso, YMDate.iso, String.lt_iff_toList_lt]
  show (pad4 a.year ++ '-' :: (pad2 a.month ++ '-' :: pad2 a.day)) <
       (pad4 b.year ++ '-' :: (pad2 b.month ++ '-' :: pad2 b.day)) ↔ _
  rw [list_lt_append_iff _ _ _ _ (by simp [pad4]),
      list_lt_cons_iff,
      list_lt_append_iff _ _ _ _ (by simp [pad2]),
      list_lt_cons_iff,
      pad4_lt_iff (by omega) (by omega), pad4_eq_iff (by omega) (by omega),
      pad2_lt_iff (by omega) (by omega), pad2_eq_iff (by omega) (by omega),
      pad2_lt_iff (by omega) (by omega)]
  have hdash : ¬('-' < '-') := lt_irrefl _
  simp only [hdash, false_or, eq_self_iff_true, true_and, YMDate.before, list_lt_nil_nil]

theorem iso_ne_empty (d : YMDate) : d.iso ≠ "" := by
  rw [YMDate.iso]
  intro h
  have h2 := congrArg String.data h
  simp [pad4] at h2

/-- C4: with `d` the resolved next-earnings date and `t` today's date (both
valid calendar dates as produced by `isoformat()`), the assembler's filter
(`signals` lines 547-554, Python string comparison of ISO strings) nulls the
date exactly when it is chronologically strictly before today, passes a date
on or after today through unchanged, and leaves a missing date `None` —
lexicographic order on valid `YYYY-MM-DD` strings coincides with
chronological order. -/
theorem c4_stale_earnings_filter (d t : YMDate) (hd : d.validIso) (ht : t.validIso) :
    (d.before t → staleEarningsFilter (some d.iso) t.iso = Option.none) ∧
    (¬ d.before t → staleEarningsFilter (some d.iso) t.iso = some d.iso) ∧
    staleEarningsFilter Option.none t.iso = Option.none := by
  have hlt := iso_lt_iff hd ht
  have hne := iso_ne_empty d
  refine ⟨?_, ?_, rfl⟩
  · intro h
    show (if (d.iso ≠ "" ∧ d.iso < t.iso) then Option.none else some d.iso) = _
    rw [if_pos ⟨hne, hlt.mpr h⟩]
  · intro h
    show (if (d.iso ≠ "" ∧ d.iso < t.iso) then Option.none else some d.iso) = _
    rw [if_neg]
    intro hcon
    exact h (hlt.mp hcon.2)

/-- Witness for C4: October 11, 2026 is nulled against an October 12, 2026
"today"; October 13 passes through. -/
theorem c4_stale_earnings_filter_witness :
    (YMDate.mk 2026 10 11).validIso ∧ (YMDate.mk 2026 10 12).validIso ∧
    (YMDate.mk 2026 10 13).validIso ∧
    (YMDate.mk 2026 10 11).before (YMDate.mk 2026 10 12) ∧
    staleEarningsFilter (some (YMDate.mk 2026 10 11).iso) (YMDate.mk 2026 10 12).iso =
      Option.none ∧
    staleEarningsFilter (some (YMDate.mk 2026 10 13).iso) (YMDate.mk 2026 10 12).iso =
      some (YMDate.mk 2026 10 13).iso := by
  refine ⟨by decide, by decide, by decide, by decide, ?_, ?_⟩
  · exact (c4_stale_earnings_filter (YMDate.mk 2026 10 11) (YMDate.mk 2026 10 12)
      (by decide) (by decide)).1 (by decide)
  · exact (c4_stale_earnings_filter (YMDate.mk 2026 10 13) (YMDate.mk 2026 10 12)
      (by decide) (by decide)).2.1 (by decide)

theorem breadth_foldl (hist : String → Option (List Bar)) (l : List String) :
    ∀ (t a : Nat),
      l.foldl (breadthStep hist) (t, a) =
        (t + (l.filter (fun s => eligible200 hist s)).length,
         a + (l.filter (fun s => eligible200 hist s && above200Flag hist s)).length) := by
  induction l with
  | nil => intro t a; simp
  | cons s rest ih =>
    intro t a
    simp only [List.foldl_cons]
    cases hdf : hist s with
    | none =>
      have hstep : breadthStep hist (t, a) s = (t, a) := by
        simp [breadthStep, hdf]
      have he : eligible200 hist s = false := by simp [eligible200, hdf]
      rw [hstep, ih t a]
      simp [List.filter_cons, he]
    | some df =>
      by_cases hlen : df.length < 200
      · have hstep : breadthStep hist (t, a) s = (t, a) := by
          by_cases hemp : df.isEmpty
          · simp [breadthStep, hdf, hemp]
          · simp [breadthStep, hdf, hemp, hlen]
        have he : eligible200 hist s = false := by
          simp only [eligible200, hdf]
          simp
          omega
        rw [hstep, ih t a]
        simp [List.filter_cons, he]
      · have hnemp : df.isEmpty = false := by
          cases df with
          | nil => simp at hlen
          | cons x xs => rfl
        have hml : (List.map Bar.close df).length = df.length := List.length_map df Bar.close
        have hsma : sma (df.map Bar.close) 200 =
            some ((((df.map Bar.close).drop (df.length - 200)).sum) / (200 : ℚ)) := by
          rw [sma, if_neg (by rw [hml]; omega), hml]
          norm_num
        have he : eligible200 hist s = true := by
          simp only [eligible200, hdf]
          simp
          omega
        have hfe : List.filter (fun z => eligible200 hist z) (s :: rest) =
            s :: List.filter (fun z => eligible200 hist z) rest := by
          simp [List.filter_cons, he]
        by_cases hgt : lastD (df.map Bar.close) >
            (((df.map Bar.close).drop (df.length - 200)).sum) / (200 : ℚ)
        · have hstep : breadthStep hist (t, a) s = (t + 1, a + 1) := by
            simp [breadthStep, hdf, hnemp, hlen, hsma, hgt]
          have hab : above200Flag hist s = true := by
            simp [above200Flag, hdf, hsma, hgt]
          have hfa : List.filter (fun z => eligible200 hist z && above200Flag hist z)
              (s :: rest) =
              s :: List.filter (fun z => eligible200 hist z && above200Flag hist z) rest := by
            simp [List.filter_cons, he, hab]
          rw [hstep, ih, hfe, hfa]
          simp only [List.length_cons, Prod.mk.injEq]
          constructor <;> omega
        · have hstep : breadthStep hist (t, a) s = (t + 1, a) := by
            simp [breadthStep, hdf, hnemp, hlen, hsma, hgt]
          have hab : above200Flag hist s = false := by
            simp [above200Flag, hdf, hsma, hgt]
          have hfa : List.filter (fun z => eligible200 hist z && above200Flag hist z)
              (s :: rest) =
              List.filter (fun z => eligible200 hist z && above200Flag hist z) rest := by
            simp [List.filter_cons, he, hab]
          rw [hstep, ih, hfe, hfa]
          simp only [List.length_cons, Prod.mk.injEq]
          exact ⟨by omega, trivial⟩

/-- C5: the breadth calculation counts exactly the watchlisted symbols with at
least 200 bars of history as eligible, counts those of them whose close is
strictly above their 200-bar SMA as above, and `risk_on` holds iff some symbol
is eligible and `100 * above / total > 60.0`; in particular it is `false`
when no symbol has sufficient history (the conjunction fails at `0 < total`). -/
theorem c5_breadth_riskon (buckets : List (String × List String))
    (hist : String → Option (List Bar)) :
    riskOnCalc buckets hist =
      decide (0 < ((allSyms buckets).filter (fun s => eligible200 hist s)).length ∧
        (((allSyms buckets).filter
            (fun s => eligible200 hist s && above200Flag hist s)).length : ℚ) /
          (((allSyms buckets).filter (fun s => eligible200 hist s)).length : ℚ) * 100 > 60) := by
  rw [riskOnCalc]
  rw [breadth_foldl hist (allSyms buckets) 0 0]
  simp only [Nat.zero_add]
  set T := ((allSyms buckets).filter (fun s => eligible200 hist s)).length with hTdef
  set A := ((allSyms buckets).filter
      (fun s => eligible200 hist s && above200Flag hist s)).length with hAdef
  by_cases hT : T = 0
  · simp [hT]
  · have hTpos : 0 < T := Nat.pos_of_ne_zero hT
    simp only [hT, if_false]
    have hmul : (100 : ℚ) * A / T = (A : ℚ) / T * 100 := by ring
    have hiff : ((100 : ℚ) * A / T > 60) ↔
        (0 < T ∧ ((A : ℚ) / T * 100 > 60)) := by
      constructor
      · intro h
        exact ⟨hTpos, by linarith [hmul ▸ h]⟩
      · rintro ⟨-, h⟩
        rw [hmul]
        exact h
    simp [hiff]

theorem countAll_nil (s : String) : countAll [] s = 0 := rfl

theorem countAll_cons (k : String) (l : List String) (bk : List (String × List String))
    (s : String) : countAll ((k, l) :: bk) s = l.count s + countAll bk s := by
  simp [countAll]

theorem countAll_append (b1 b2 : List (String × List String)) (s : String) :
    countAll (b1 ++ b2) s = countAll b1 s + countAll b2 s := by
  simp [countAll]

theorem countAll_erase_self (bk : List (String × List String)) (x : String)
    (h : countAll bk x ≤ 1) : countAll (eraseEverywhere bk x) x = 0 := by
  induction bk with
  | nil => rfl
  | cons p rest ih =>
    obtain ⟨k, l⟩ := p
    rw [countAll_cons] at h
    have h1 : l.count x ≤ 1 := by omega
    have h2 : countAll rest x ≤ 1 := by omega
    have he : (l.erase x).count x = l.count x - 1 := List.count_erase_self x l
    simp only [eraseEverywhere, List.map_cons] at *
    rw [countAll_cons]
    have := ih h2
    simp only [eraseEverywhere] at this
    omega

theorem countAll_erase_ne (bk : List (String × List String)) (x y : String) (h : y ≠ x) :
    countAll (eraseEverywhere bk x) y = countAll bk y := by
  induction bk with
  | nil => rfl
  | cons p rest ih =>
    obtain ⟨k, l⟩ := p
    simp only [eraseEverywhere, List.map_cons] at *
    rw [countAll_cons, countAll_cons, List.count_erase_of_ne h, ih]

theorem countAll_appendTo_self (bk : List (String × List String)) (key x : String) :
    countAll (appendTo bk key x) x ≤ countAll bk x + 1 := by
  induction bk with
  | nil => simp [appendTo, countAll]
  | cons p rest ih =>
    obtain ⟨k, l⟩ := p
    by_cases hk : k = key
    · simp only [appendTo, hk, beq_self_eq_true, if_true]
      rw [countAll_cons, countAll_cons, List.count_append]
      simp
      omega
    · have hb : (k == key) = false := beq_eq_false_iff_ne.mpr hk
      simp only [appendTo, hb, Bool.false_eq_true, if_false]
      rw [countAll_cons, countAll_cons]
      omega

theorem countAll_appendTo_ne (bk : List (String × List String)) (key x y : String)
    (h : y ≠ x) : countAll (appendTo bk key x) y = countAll bk y := by
  induction bk with
  | nil => simp [appendTo, countAll]
  | cons p rest ih =>
    obtain ⟨k, l⟩ := p
    by_cases hk : k = key
    · simp only [appendTo, hk, beq_self_eq_true, if_true]
      rw [countAll_cons, countAll_cons, List.count_append]
      have : [x].count y = 0 := by simp [h]
      omega
    · have hb : (k == key) = false := beq_eq_false_iff_ne.mpr hk
      simp only [appendTo, hb, Bool.false_eq_true, if_false]
      rw [countAll_cons, countAll_cons, ih]

theorem countAll_createBucket (st : WLState) (name : String) (s : String) :
    countAll (createBucket st name).buckets s = countAll st.buckets s := by
  rw [createBucket]
  by_cases h : st.buckets.any (fun p => p.1 == normKey name)
  · simp [h]
  · simp only [h, if_false, Bool.false_eq_true]
    rw [countAll_append]
    simp [countAll]

theorem popKey_cons_ne (k key : String) (l : List String)
    (rest : List (String × List String)) (hb : (k == key) = false) :
    popKey ((k, l) :: rest) key =
      (popKey rest key).map (fun q => (q.1, (k, l) :: q.2)) := by
  simp [popKey, hb]

theorem popKey_count (key : String) (m : List String) :
    ∀ (bk bk2 : List (String × List String)), popKey bk key = some (m, bk2) →
      ∀ s, countAll bk s = m.count s + countAll bk2 s := by
  intro bk
  induction bk with
  | nil => intro bk2 h; simp [popKey] at h
  | cons p rest ih =>
    intro bk2 h s
    obtain ⟨k, l⟩ := p
    by_cases hk : k = key
    · simp only [popKey, hk, beq_self_eq_true, if_true, Option.some.injEq, Prod.mk.injEq] at h
      obtain ⟨h1, h2⟩ := h
      subst h1; subst h2
      rw [countAll_cons]
    · have hb : (k == key) = false := beq_eq_false_iff_ne.mpr hk
      rw [popKey_cons_ne k key l rest hb, Option.map_eq_some'] at h
      obtain ⟨q, hq, hq2⟩ := h
      obtain ⟨m2, r2⟩ := q
      simp only [Prod.mk.injEq] at hq2
      obtain ⟨hm, hr⟩ := hq2
      subst hm
      subst hr
      rw [countAll_cons, countAll_cons, ih r2 hq s]
      omega

theorem countAll_extendAt (bk : List (String × List String)) (key : String)
    (ms : List String) (s : String) (hk : bk.any (fun p => p.1 == key) = true) :
    countAll (extendAt bk key ms) s = countAll bk s + ms.count s := by
  induction bk with
  | nil => simp at hk
  | cons p rest ih =>
    obtain ⟨k, l⟩ := p
    by_cases hkey : k = key
    · simp only [extendAt, hkey, beq_self_eq_true, if_true]
      rw [countAll_cons, countAll_cons, List.count_append]
      omega
    · have hb : (k == key) = false := beq_eq_false_iff_ne.mpr hkey
      simp only [extendAt, hb, Bool.false_eq_true, if_false]
      have hk2 : rest.any (fun p => p.1 == key) = true := by
        simp only [List.any_cons, hb, Bool.false_or] at hk
        exact hk
      rw [countAll_cons, countAll_cons, ih hk2]
      omega
theorem move_like_inv (bk : List (String × List String)) (key sym : String)
    (h : ∀ s, countAll bk s ≤ 1) (s : String) :
    countAll (appendTo (eraseEverywhere bk sym) key sym) s ≤ 1 := by
  by_cases hxy : s = sym
  · subst hxy
    have h0 : countAll (eraseEverywhere bk s) s = 0 := countAll_erase_self bk s (h s)
    have hap := countAll_appendTo_self (eraseEverywhere bk s) key s
    omega
  · rw [countAll_appendTo_ne _ _ _ _ hxy, countAll_erase_ne _ _ _ hxy]
    exact h s

theorem addTicker_inv (st : WLState) (sid : String) (b : Option String)
    (h : oneBucketInv st) : oneBucketInv (addTicker st sid b) := by
  rw [addTicker]
  cases hres : resolveSecurity sid with
  | none => exact h
  | some resolved =>
    intro s
    refine move_like_inv _ _ _ (fun z => ?_) s
    rw [countAll_createBucket]
    exact h z

theorem moveTicker_inv (st : WLState) (symbol bucket : String)
    (h : oneBucketInv st) : oneBucketInv (moveTicker st symbol bucket) := by
  rw [moveTicker]
  by_cases hmem : st.tickers.contains symbol.toUpper
  · simp only [hmem, if_true]
    intro s
    refine move_like_inv _ _ _ (fun z => ?_) s
    rw [countAll_createBucket]
    exact h z
  · simp only [hmem, Bool.false_eq_true, if_false]
    exact h

theorem removeTicker_inv (st : WLState) (symbol : String)
    (h : oneBucketInv st) : oneBucketInv (removeTicker st symbol) := by
  rw [removeTicker]
  intro s
  show countAll (eraseEverywhere st.buckets symbol.toUpper) s ≤ 1
  by_cases hxy : s = symbol.toUpper
  · rw [hxy]
    have h0 : countAll (eraseEverywhere st.buckets symbol.toUpper) symbol.toUpper = 0 :=
      countAll_erase_self _ _ (h symbol.toUpper)
    omega
  · rw [countAll_erase_ne _ _ _ hxy]
    exact h s

theorem deleteBucket_inv (st : WLState) (name : String)
    (h : oneBucketInv st) : oneBucketInv (deleteBucket st name) := by
  rw [deleteBucket]
  cases hpk : popKey st.buckets (normKey name) with
  | none => exact h
  | some q =>
    obtain ⟨moved, bk2⟩ := q
    have hsplit := popKey_count (normKey name) moved st.buckets bk2 hpk
    by_cases hav : bk2.any (fun p => p.1 == "avoid") = true
    · simp only [hav, if_true]
      intro s
      rw [countAll_extendAt bk2 "avoid" moved s hav]
      have h1 := hsplit s
      have h2 := h s
      omega
    · simp only [hav, Bool.false_eq_true, if_false]
      intro s
      rw [countAll_append]
      have h1 := hsplit s
      have h2 := h s
      have h3 : countAll [("avoid", moved)] s = moved.count s := by
        simp [countAll]
      omega

/-- C8: every watchlist mutation — `add_ticker`, `move_ticker`,
`remove_ticker`, `delete_bucket` — preserves the invariant that each symbol
occurs in at most one bucket's member list (globally at most once across all
buckets). -/
theorem c8_one_bucket_invariant (st : WLState) (m : WlMut) (h : oneBucketInv st) :
    oneBucketInv (applyMut st m) := by
  cases m with
  | add sid b => exact addTicker_inv st sid b h
  | move s b => exact moveTicker_inv st s b h
  | remove s => exact removeTicker_inv st s h
  | dropBucket n => exact deleteBucket_inv st n h

/-- Witness for C8: moving `NVDA` from `swing` to `conviction` in a two-bucket
state satisfying the invariant. -/
theorem c8_one_bucket_invariant_witness :
    oneBucketInv (WLState.mk ["NVDA"] [("swing", ["NVDA"]), ("avoid", [])]) ∧
    oneBucketInv (applyMut (WLState.mk ["NVDA"] [("swing", ["NVDA"]), ("avoid", [])])
      (WlMut.move "NVDA" "conviction")) := by
  have hinv : oneBucketInv (WLState.mk ["NVDA"] [("swing", ["NVDA"]), ("avoid", [])]) := by
    intro s
    have hle : List.count s ["NVDA"] ≤ 1 := by
      by_cases hs : s = "NVDA" <;> simp [hs]
    simp [countAll]
    omega
  exact ⟨hinv, c8_one_bucket_invariant _ _ hinv⟩

theorem rhe_nonneg {x : ℚ} (h : 0 ≤ x) : 0 ≤ rhe x := by
  rw [rhe]
  have hf : (0 : ℤ) ≤ ⌊x⌋ := Int.floor_nonneg.mpr h
  split_ifs <;> omega

theorem rhe_le {x : ℚ} {n : ℤ} (h : x ≤ n) : rhe x ≤ n := by
  rw [rhe]
  have hf : ⌊x⌋ ≤ n := by
    have := Int.floor_le_floor h
    simpa using this
  have hcase : ⌊x⌋ < n ∨ (⌊x⌋ = n ∧ x - ⌊x⌋ < 1/2) := by
    rcases lt_or_eq_of_le hf with hlt | heq
    · exact Or.inl hlt
    · refine Or.inr ⟨heq, ?_⟩
      have hxf : (⌊x⌋ : ℚ) ≤ x := Int.floor_le x
      have hxn : x ≤ (⌊x⌋ : ℚ) := by
        rw [heq]
        exact h
      have : x - ⌊x⌋ = 0 := by linarith
      rw [this]
      norm_num
  split_ifs with h1 h2 h3
  · exact hf
  · rcases hcase with hlt | ⟨heq, hr⟩
    · omega
    · exact absurd hr h1
  · exact hf
  · rcases hcase with hlt | ⟨heq, hr⟩
    · omega
    · exact absurd hr h1

theorem pyRound2_bounds {q : ℚ} (h0 : 0 ≤ q) (h100 : q ≤ 100) :
    0 ≤ pyRound 2 q ∧ pyRound 2 q ≤ 100 := by
  rw [pyRound]
  have ha : 0 ≤ q * 10 ^ 2 := by positivity
  have hb : q * 10 ^ 2 ≤ ((10000 : ℤ) : ℚ) := by push_cast; linarith
  have h1 : 0 ≤ rhe (q * 10 ^ 2) := rhe_nonneg ha
  have h2 : rhe (q * 10 ^ 2) ≤ 10000 := rhe_le hb
  constructor
  · apply div_nonneg
    · exact_mod_cast h1
    · positivity
  · rw [div_le_iff₀ (by positivity)]
    calc ((rhe (q * 10 ^ 2) : ℤ) : ℚ) ≤ ((10000 : ℤ) : ℚ) := by exact_mod_cast h2
    _ = 100 * 10 ^ 2 := by norm_num

/-- C7 (amended): RSI(14) is either `None`, or NaN (rolling means unavailable
on short series, the NaN passing the range guard), or a number in `[0, 100]`:
the out-of-range guard discards every numeric value outside `[0, 100]` and
the 2-decimal rounding preserves the bounds. -/
theorem c7_amended_rsi_range (closes : List ℚ) :
    rsiCalc closes 14 = POF.none ∨ rsiCalc closes 14 = POF.nan ∨
      ∃ q : ℚ, rsiCalc closes 14 = POF.num q ∧ 0 ≤ q ∧ q ≤ 100 := by
  rw [rsiCalc]
  cases hv : rsiSeriesLast closes 14 with
  | none => exact Or.inl rfl
  | some v =>
    cases v with
    | nan => exact Or.inr (Or.inl rfl)
    | num q =>
      by_cases hlo : q < 0
      · refine Or.inl ?_
        simp [PF.ltB, hlo]
      · by_cases hhi : 100 < q
        · refine Or.inl ?_
          simp [PF.ltB, hhi]
        · refine Or.inr (Or.inr ⟨pyRound 2 q, ?_, ?_, ?_⟩)
          · simp [PF.ltB, hlo, hhi, PF.round2, pofOfPF]
          · exact (pyRound2_bounds (by linarith) (by linarith)).1
          · exact (pyRound2_bounds (by linarith) (by linarith)).2

theorem getLast?_range_map {α : Type} (f : Nat → α) (n : Nat) (h : n ≠ 0) :
    ((List.range n).map f).getLast? = some (f (n - 1)) := by
  cases n with
  | zero => simp at h
  | succ m =>
    rw [List.range_succ, List.map_append]
    simp

theorem any_isNan_map_num (l : List ℚ) : (l.map PF.num).any PF.isNan = false := by
  induction l with
  | nil => rfl
  | cons x xs ih => simp [PF.isNan, ih]

theorem rollingMean_last (w : Nat) (xs : List ℚ) (hne : xs ≠ []) :
    (rollingMean w (xs.map PF.num)).getLast? =
      some (if xs.length < w then PF.nan
            else PF.num (((xs.drop (xs.length - w)).sum) / (w : ℚ))) := by
  have hpos : 0 < xs.length := List.length_pos.mpr hne
  have hlen : (xs.map PF.num).length = xs.length := List.length_map xs PF.num
  rw [rollingMean, hlen, getLast?_range_map _ _ (by omega)]
  have hi : xs.length - 1 + 1 = xs.length := by omega
  rw [hi]
  by_cases hw : xs.length < w
  · simp [hw]
  · simp only [hw, if_false, Option.some.injEq]
    have htake : (xs.map PF.num).take xs.length = xs.map PF.num := by
      rw [← hlen]
      exact List.take_length _
    rw [htake]
    have hdrop : (xs.map PF.num).drop (xs.length - w) =
        (xs.drop (xs.length - w)).map PF.num :=
      (List.map_drop PF.num xs (xs.length - w)).symm
    rw [hdrop]
    have hnonan : ((xs.drop (xs.length - w)).map PF.num).any PF.isNan = false :=
      any_isNan_map_num _
    rw [hnonan]
    simp only [Bool.false_eq_true, if_false]
    rw [List.map_map]
    have hid : (PF.toQ ∘ PF.num) = id := by
      funext z
      rfl
    rw [hid, List.map_id]

theorem getLast?_eq_some_lastD (l : List ℚ) (h : l ≠ []) :
    l.getLast? = some (lastD l) := by
  cases hg : l.getLast? with
  | none =>
    rw [List.getLast?_eq_none_iff] at hg
    exact absurd hg h
  | some y => simp [lastD, hg]

/-- C3 (amended): the volume ratio is `round(last / mean(last 20), 2)` when at
least 20 bars exist and the 20-bar mean is nonzero; it is `None` for an empty
series and when the mean is exactly zero (the division is never performed on a
zero denominator); but for a nonempty series with fewer than 20 bars the
rolling mean is NaN — truthy and `!= 0` in Python — so the division is
performed on the NaN denominator and the field is NaN, not `None`. -/
theorem c3_amended_volratio (vols : List ℚ) :
    (vols = [] → volAvg20RatioCalc vols = POF.none) ∧
    (vols ≠ [] → vols.length < 20 → volAvg20RatioCalc vols = POF.nan) ∧
    (20 ≤ vols.length →
      ((vols.drop (vols.length - 20)).sum / (20 : ℚ) = 0 →
        volAvg20RatioCalc vols = POF.none) ∧
      ((vols.drop (vols.length - 20)).sum / (20 : ℚ) ≠ 0 →
        volAvg20RatioCalc vols = POF.num (pyRound 2 (lastD vols /
          ((vols.drop (vols.length - 20)).sum / (20 : ℚ)))))) := by
  refine ⟨?_, ?_, ?_⟩
  · intro h
    subst h
    rfl
  · intro hne hlt
    rw [volAvg20RatioCalc, rollingMean_last 20 vols hne, getLast?_eq_some_lastD vols hne]
    simp [hlt, PF.truthy, PF.neZero, PF.div, PF.round2, pofOfPF]
  · intro hge
    have hne : vols ≠ [] := by
      intro h
      rw [h] at hge
      simp at hge
    have hnlt : ¬ vols.length < 20 := by omega
    constructor
    · intro hz
      rw [volAvg20RatioCalc, rollingMean_last 20 vols hne, getLast?_eq_some_lastD vols hne]
      simp [hnlt, hz, PF.truthy, PF.neZero]
    · intro hz
      rw [volAvg20RatioCalc, rollingMean_last 20 vols hne, getLast?_eq_some_lastD vols hne]
      simp [hnlt, hz, PF.truthy, PF.neZero, PF.div, PF.round2, pofOfPF]

/-- Witness for C3 at a 20-bar constant-volume series and the empty series. -/
theorem c3_amended_volratio_witness :
    (20 ≤ ([20, 20, 20, 20, 20, 20, 20, 20, 20, 20,
            20, 20, 20, 20, 20, 20, 20, 20, 20, 20] : List ℚ).length) ∧
    ((([20, 20, 20, 20, 20, 20, 20, 20, 20, 20,
        20, 20, 20, 20, 20, 20, 20, 20, 20, 20] : List ℚ).drop
          (([20, 20, 20, 20, 20, 20, 20, 20, 20, 20,
             20, 20, 20, 20, 20, 20, 20, 20, 20, 20] : List ℚ).length - 20)).sum /
        (20 : ℚ) ≠ 0) ∧
    volAvg20RatioCalc [20, 20, 20, 20, 20, 20, 20, 20, 20, 20,
        20, 20, 20, 20, 20, 20, 20, 20, 20, 20] = POF.num 1 ∧
    volAvg20RatioCalc [] = POF.none := by
  have hlen : (20 ≤ ([20, 20, 20, 20, 20, 20, 20, 20, 20, 20,
      20, 20, 20, 20, 20, 20, 20, 20, 20, 20] : List ℚ).length) := by
    simp
  have hsum : (([20, 20, 20, 20, 20, 20, 20, 20, 20, 20,
      20, 20, 20, 20, 20, 20, 20, 20, 20, 20] : List ℚ).drop
        (([20, 20, 20, 20, 20, 20, 20, 20, 20, 20,
           20, 20, 20, 20, 20, 20, 20, 20, 20, 20] : List ℚ).length - 20)).sum /
      (20 : ℚ) = 20 := by
    norm_num [List.sum_cons, List.sum_nil]
  have h := (c3_amended_volratio [20, 20, 20, 20, 20, 20, 20, 20, 20, 20,
      20, 20, 20, 20, 20, 20, 20, 20, 20, 20]).2.2 hlen
  refine ⟨hlen, by rw [hsum]; norm_num, ?_, (c3_amended_volratio []).1 rfl⟩
  have h2 := h.2 (by rw [hsum]; norm_num)
  rw [h2, hsum]
  norm_num [lastD, pyRound, rhe]

/-- C2 (amended): there is no 24-hour fallback cache: on a 60-minute-cache
miss the five fields are derived from the two provider calls alone and cached
only in the 60-minute cache, and whenever the price-target call yields no
truthy `avg_target` (absent, or the falsy `0.0`), the returned and cached
`avg_target` is `None`.  The only `avg_target` fallback in the code is the
high/low midpoint inside `_yahoo_price_target` itself. -/
theorem c2_amended_no_fallback_cache (cache : List (String × CachedPayload))
    (sym : String) (now : ℚ) (r : Option Reco) (pt : Option PriceTarget)
    (hmiss : cacheLookup cache sym = Option.none)
    (hpt : pt = Option.none ∨
      ∃ p, pt = some p ∧ (p.avg_target = Option.none ∨ p.avg_target = some 0)) :
    (analystMaybe cache sym now (Except.ok r) pt =
        Except.ok (deriveFields r pt,
          cacheInsert cache sym (CachedPayload.mk (deriveFields r pt) now), true) ∧
      (deriveFields r pt).avg_target = Option.none) ∧
    (∀ (i : YInfo) (h l : ℚ),
      pick2 i.targetMeanPrice i.targetMean = Option.none →
      pick2 i.targetHighPrice i.targetHigh = some h →
      pick2 i.targetLowPrice i.targetLow = some l →
      ∃ t : PriceTarget, yahooPriceTarget (some i) = some t ∧
        t.avg_target = some ((h + l) / 2)) := by
  constructor
  · constructor
    · rw [analystMaybe, hmiss]
      exact analystFetch_ok cache sym now r pt
    · rcases hpt with hp | ⟨p, hp, hv⟩
      · subst hp
        rfl
      · subst hp
        rcases hv with hv | hv <;> simp [deriveFields, hv, r2]
  · intro i h l hm hh hl
    refine ⟨PriceTarget.mk (some ((h + l) / 2)) (pick2 i.targetMedianPrice i.targetMedian)
      (some h) (some l), ?_, rfl⟩
    rw [yahooPriceTarget]
    rw [hm, hh, hl]
    simp

/-- Witness for C2 (amended): a cold cache, no provider target, and a Yahoo
`info` with only `targetHighPrice = 60` and `targetLowPrice = 40`. -/
theorem c2_amended_no_fallback_cache_witness :
    cacheLookup [] "AAPL" = Option.none ∧
    (analystMaybe [] "AAPL" 0 (Except.ok Option.none) Option.none =
        Except.ok (deriveFields Option.none Option.none,
          cacheInsert [] "AAPL" (CachedPayload.mk (deriveFields Option.none Option.none) 0),
          true) ∧
      (deriveFields Option.none Option.none).avg_target = Option.none) ∧
    (∃ t : PriceTarget,
      yahooPriceTarget (some (YInfo.mk Option.none Option.none Option.none Option.none
        (some 60) Option.none (some 40) Option.none)) = some t ∧
      t.avg_target = some (((60 : ℚ) + 40) / 2)) := by
  have h := c2_amended_no_fallback_cache [] "AAPL" 0 Option.none Option.none rfl (Or.inl rfl)
  exact ⟨rfl, h.1, h.2 (YInfo.mk Option.none Option.none Option.none Option.none
    (some 60) Option.none (some 40) Option.none) 60 40 rfl rfl rfl⟩

theorem blankCache_insert (c : List (String × CachedPayload)) (sym : String) (now : ℚ)
    (h : BlankCache c) :
    BlankCache (cacheInsert c sym (CachedPayload.mk blankAnalystFields now)) := by
  induction c with
  | nil =>
    intro e he
    simp only [cacheInsert, List.mem_singleton] at he
    rw [he]
  | cons hd tl ih =>
    intro e he
    obtain ⟨k, v⟩ := hd
    by_cases hk : k = sym
    · simp only [cacheInsert, hk, beq_self_eq_true, if_true] at he
      rcases List.mem_cons.mp he with h1 | h1
      · rw [h1]
      · exact h e (List.mem_cons_of_mem _ h1)
    · have hb : (k == sym) = false := beq_eq_false_iff_ne.mpr hk
      simp only [cacheInsert, hb, Bool.false_eq_true, if_false] at he
      rcases List.mem_cons.mp he with h1 | h1
      · rw [h1]
        exact h (k, v) (List.mem_cons_self _ _)
      · exact ih (fun e2 he2 => h e2 (List.mem_cons_of_mem _ he2)) e h1

theorem cacheLookup_mem_fields (cache : List (String × CachedPayload)) (sym : String)
    (c : CachedPayload) (hlk : cacheLookup cache sym = some c) (h : BlankCache cache) :
    c.fields = blankAnalystFields := by
  rw [cacheLookup, Option.map_eq_some'] at hlk
  obtain ⟨p, hp, hc⟩ := hlk
  have hmem := List.mem_of_find?_eq_some hp
  rw [← hc]
  exact h p hmem

theorem analystMaybe_blank (cache : List (String × CachedPayload)) (sym : String)
    (now : ℚ) (h : BlankCache cache) :
    ∃ c2 b, analystMaybe cache sym now (Except.ok Option.none) Option.none =
      Except.ok (blankAnalystFields, c2, b) ∧ BlankCache c2 := by
  rw [analystMaybe]
  cases hlk : cacheLookup cache sym with
  | none =>
    refine ⟨cacheInsert cache sym (CachedPayload.mk blankAnalystFields now), true, ?_, ?_⟩
    · exact analystFetch_ok cache sym now Option.none Option.none
    · exact blankCache_insert cache sym now h
  | some c =>
    by_cases ht : now - c.ts ≤ 3600
    · refine ⟨cache, false, ?_, h⟩
      show (if now - c.ts ≤ 3600 then Except.ok (c.fields, cache, false)
          else analystFetch cache sym now (Except.ok Option.none) Option.none) =
        Except.ok (blankAnalystFields, cache, false)
      rw [if_pos ht, cacheLookup_mem_fields cache sym c hlk h]
    · refine ⟨cacheInsert cache sym (CachedPayload.mk blankAnalystFields now), true, ?_, ?_⟩
      · show (if now - c.ts ≤ 3600 then Except.ok (c.fields, cache, false)
            else analystFetch cache sym now (Except.ok Option.none) Option.none) =
          Except.ok (blankAnalystFields,
            cacheInsert cache sym (CachedPayload.mk blankAnalystFields now), true)
        rw [if_neg ht]
        exact analystFetch_ok cache sym now Option.none Option.none
      · exact blankCache_insert cache sym now h

theorem buildRecord_outage (w : World) (hw : OutageWorld w) (sym bucket : String)
    (cache : List (String × CachedPayload)) (idx : Nat) (hc : BlankCache cache) :
    ∃ c2, buildRecord w true (noDataRow sym bucket) cache idx =
      Except.ok (outageRecord sym bucket, c2, idx + 1) ∧ BlankCache c2 := by
  obtain ⟨hh, hr, hp, hn, hf, hfu⟩ := hw
  obtain ⟨c2, b, hm, hbc⟩ := analystMaybe_blank cache sym (w.clock idx) hc
  refine ⟨c2, ?_, hbc⟩
  rw [buildRecord]
  simp only [noDataRow, if_true]
  rw [hr sym, hp sym]
  rw [hm, exbind_ok]
  rw [hn sym, hf sym]
  rw [hfu sym]
  rfl

theorem riskOn_outage (buckets : List (String × List String))
    (hist : String → Option (List Bar)) (hh : ∀ s, hist s = Option.none) :
    riskOnCalc buckets hist = false := by
  rw [riskOnCalc, breadth_foldl hist (allSyms buckets) 0 0]
  have hfil : (allSyms buckets).filter (fun s => eligible200 hist s) = [] := by
    rw [List.filter_eq_nil_iff]
    intro a _
    simp [eligible200, hh a]
  simp [hfil]

theorem signalsGo_outage (w : World) (hw : OutageWorld w) (rk : Bool)
    (pairs : List (String × String)) :
    ∀ (cache : List (String × CachedPayload)) (idx : Nat), BlankCache cache →
      signalsGo w true rk pairs cache idx =
        Except.ok (pairs.map (fun p => outageRecord p.1 p.2)) := by
  induction pairs with
  | nil => intro cache idx hc; rfl
  | cons p rest ih =>
    intro cache idx hc
    obtain ⟨sym, bucket⟩ := p
    obtain ⟨c2, hb, hbc⟩ := buildRecord_outage w hw sym bucket cache idx hc
    rw [signalsGo, hw.1 sym]
    show (Except.ok (noDataRow sym bucket) >>= fun row =>
        buildRecord w true row cache idx >>= fun q =>
          signalsGo w true rk rest q.2.1 q.2.2 >>= fun tail =>
            Except.ok (q.1 :: tail)) = _
    rw [exbind_ok, hb, exbind_ok]
    rw [ih c2 (idx + 1) hbc, exbind_ok]
    rfl

/-- C9 (amended): a missing or empty price history makes `_calc_signal`
return the canonical all-`None`/`false` row (same `SignalRow` shape as every
result), and under a total data outage in which every external source fails
by returning no data the assembly pass completes, emitting exactly one
full-shaped outage record per watchlist entry.  (When a source fails by
raising instead, the batch aborts — see the counterexample.) -/
theorem c9_amended_no_data :
    (∀ (sym bucket : String) (rk : Bool),
      calcSignal sym bucket Option.none rk = Except.ok (noDataRow sym bucket) ∧
      calcSignal sym bucket (some []) rk = Except.ok (noDataRow sym bucket)) ∧
    (∀ (buckets : List (String × List String)) (w : World), OutageWorld w →
      signalsFull buckets w true =
        Except.ok ((watchPairs buckets).map (fun p => outageRecord p.1 p.2))) := by
  constructor
  · intro sym bucket rk
    exact ⟨rfl, rfl⟩
  · intro buckets w hw
    rw [signalsFull]
    exact signalsGo_outage w hw (riskOnCalc buckets w.hist) (watchPairs buckets) [] 0
      (fun e he => absurd he (List.not_mem_nil e))

/-- Witness for C9 (amended): a one-symbol watchlist in a world where every
source returns no data. -/
theorem c9_amended_no_data_witness :
    (calcSignal "NVDA" "swing" Option.none false = Except.ok (noDataRow "NVDA" "swing")) ∧
    OutageWorld (World.mk (fun _ => Option.none) (fun _ => Except.ok Option.none)
      (fun _ => Option.none) (fun _ => Option.none) (fun _ => Option.none)
      (fun _ => blankFund) "2026-10-12" (fun _ => 0)) ∧
    signalsFull [("swing", ["NVDA"])]
      (World.mk (fun _ => Option.none) (fun _ => Except.ok Option.none)
        (fun _ => Option.none) (fun _ => Option.none) (fun _ => Option.none)
        (fun _ => blankFund) "2026-10-12" (fun _ => 0)) true =
      Except.ok [outageRecord "NVDA" "swing"] := by
  have hw : OutageWorld (World.mk (fun _ => Option.none) (fun _ => Except.ok Option.none)
      (fun _ => Option.none) (fun _ => Option.none) (fun _ => Option.none)
      (fun _ => blankFund) "2026-10-12" (fun _ => 0)) :=
    ⟨fun _ => rfl, fun _ => rfl, fun _ => rfl, fun _ => rfl, fun _ => rfl, fun _ => rfl⟩
  exact ⟨(c9_amended_no_data.1 "NVDA" "swing" false).1, hw,
    c9_amended_no_data.2 [("swing", ["NVDA"])] _ hw⟩

end DashStore
